import Mathlib

/-!
Verification of the chatsvc chat-service core against its specification.

The definitions below are a shallow embedding of `chatsvc/chat.py`,
`chatsvc/handler.py`, `chatsvc/replication.py`,
`chatsvc/message_handlers/manager.py` and
`chatsvc/message_handlers/status.py`.  Thrift-generated wire types
(`trchatsvc.gen.ttypes`) and Python-stdlib helpers (`bisect`) are external
to the repository and are modelled from the spec and their documented
behaviour; every such definition says so in its doc comment.
-/

set_option linter.unnecessarySeqFocus false

namespace Chatsvc

/-- Modelled from the spec: thrift enum `ChatStatus` (external
`trchatsvc.gen.ttypes`), values PENDING, STARTED, ENDED. -/
inductive ChatStatus
  | PENDING
  | STARTED
  | ENDED
deriving DecidableEq, Repr

/-- Modelled from the spec: thrift enum `MessageRouteType` (external). -/
inductive MessageRouteType
  | BROADCAST_ROUTE
  | TARGETED_ROUTE
  | NO_ROUTE
deriving DecidableEq, Repr

/-- Modelled from the spec: thrift enum `UserStatus` (external). -/
inductive UserStatus
  | DISCONNECTED
  | AVAILABLE
  | UNAVAILABLE
deriving DecidableEq, Repr

/-- Modelled from the spec: thrift enum `MessageType` (external).  Only the
types the embedded code inspects are distinguished; `TAG_CREATE` stands for
any payload type other than the status and marker types. -/
inductive MessageType
  | CHAT_STATUS
  | USER_STATUS
  | MARKER_CREATE
  | TAG_CREATE
deriving DecidableEq, Repr

/-- Modelled from the spec: thrift struct `MessageRoute` (external); §3 of the
spec gives fields `type` and, for TARGETED_ROUTE, `recipients` (a set of
user ids).  `src/tests/persistence.py` also reads `route.recipients`.  -/
structure MessageRoute where
  type : MessageRouteType
  recipients : List Nat := []
deriving DecidableEq, Repr

/-- Modelled from the spec: thrift struct `MessageHeader` (external).  Fields
that the code checks against Python `None` are `Option`s. -/
structure MessageHeader where
  id : Option String
  type : MessageType
  chatToken : String
  userId : Nat
  timestamp : Option Int
  skew : Int
  route : Option MessageRoute
deriving DecidableEq, Repr

/-- Modelled from the spec: thrift struct `ChatStatusMessage` payload. -/
structure ChatStatusMessage where
  status : ChatStatus
deriving DecidableEq, Repr

/-- Modelled from the spec: thrift struct `UserStatusMessage` payload. -/
structure UserStatusMessage where
  userId : Nat
  status : UserStatus
deriving DecidableEq, Repr

/-- Modelled from the spec: thrift struct `Message` (external).  Only the
payloads the embedded handlers read are carried. -/
structure Message where
  header : MessageHeader
  chatStatusMessage : Option ChatStatusMessage := none
  userStatusMessage : Option UserStatusMessage := none
deriving DecidableEq, Repr

/-- Modelled from the spec: thrift struct `UserState` (external):
`{userId, status, updateTimestamp}`. -/
structure UserState where
  userId : Nat
  status : UserStatus
  updateTimestamp : Int
deriving DecidableEq, Repr

/-- Modelled from the spec: thrift struct `ChatState` (external), the scalar
chat fields plus the message list, as constructed in `Chat.__init__`
(chat.py:28).  `users` and `session` are Python dicts, modelled as
insertion-ordered association lists. -/
structure ChatState where
  token : String
  status : ChatStatus
  maxDuration : Int
  maxParticipants : Int
  startTimestamp : Int
  endTimestamp : Int
  users : List (Nat × UserState)
  persisted : Bool
  session : List (String × String)
  messages : List Message
deriving DecidableEq, Repr

/-- The in-memory `Chat` object of chat.py: the thrift state plus the
bookkeeping fields set up in `Chat.__init__` (chat.py:19-68).  The gevent
events are represented only by the `loaded` flag (`loaded_event.is_set()`);
`message_event` carries no state observed by the claims.  `message_history`
is the dict `{message_id: message}`; only key membership and size are ever
read, so the keys are kept (in insertion order). -/
structure Chat where
  state : ChatState
  id : Option Int
  loaded : Bool
  message_timestamps : List (Option Int)
  message_history : List (Option String)
  expiration_threshold : Int
deriving DecidableEq, Repr

/-- `Chat.__init__` (chat.py:19-68): fresh chat for a token. -/
def newChat (token : String) : Chat :=
  { state :=
      { token := token
        status := .PENDING
        maxDuration := 0
        maxParticipants := 0
        startTimestamp := 0
        endTimestamp := 0
        users := []
        persisted := false
        session := []
        messages := [] }
    id := none
    loaded := false
    message_timestamps := []
    message_history := []
    expiration_threshold := 360 }

/-- Python 2 `<` on the values stored in `message_timestamps`: `None`
compares below every number, and numbers compare numerically. -/
def pyLt : Option Int → Option Int → Bool
  | none, none => false
  | none, some _ => true
  | some _, none => false
  | some a, some b => a < b

/-- Modelled from Python stdlib `bisect.bisect` (= `bisect_right`): for a
sorted list, the insertion index to the right of entries equal to `x`.
Written as the equivalent linear scan; on sorted input it returns exactly
the index the binary search returns (for unsorted input `bisect` promises
nothing). -/
def bisectRight : List (Option Int) → Option Int → Nat
  | [], _ => 0
  | a :: l, x => if pyLt x a then 0 else bisectRight l x + 1

/-- Python `list.insert(index, x)`: indexes past the end append. -/
def pyInsert : Nat → α → List α → List α
  | 0, x, l => x :: l
  | _ + 1, x, [] => [x]
  | n + 1, x, a :: l => a :: pyInsert n x l

/-- Python dict lookup (`d.get(k)` / `d[k]`) on an association list. -/
def dictGet {β : Type} (d : List (Nat × β)) (k : Nat) : Option β :=
  match d with
  | [] => none
  | (k', v) :: rest => if k' = k then some v else dictGet rest k

/-- Python dict assignment `d[k] = v`: overwrite in place if the key exists,
otherwise append in insertion order. -/
def dictSet {β : Type} (d : List (Nat × β)) (k : Nat) (v : β) : List (Nat × β) :=
  match d with
  | [] => [(k, v)]
  | (k', v') :: rest => if k' = k then (k, v) :: rest else (k', v') :: dictSet rest k v

/-- `Chat._store_message` (chat.py:70-81): skip ids already in
`message_history`, otherwise insert message and timestamp at the
`bisect.bisect` position and record the id. -/
def storeMessage (c : Chat) (m : Message) : Chat :=
  if m.header.id ∈ c.message_history then c
  else
    let index := bisectRight c.message_timestamps m.header.timestamp
    { c with
      message_history := c.message_history ++ [m.header.id]
      message_timestamps := pyInsert index m.header.timestamp c.message_timestamps
      state := { c.state with messages := pyInsert index m c.state.messages } }

/-- Loop body of `Chat.send_messages` (chat.py:277-296): for each message not
already in `message_history`, overwrite `header.timestamp` with a fresh
`tz.timestamp()` reading (one clock reading per stored message, supplied by
`clock`) and store it.  The final `trigger_messages()` touches only the
gevent event. -/
def sendMessagesLoop (clock : Nat → Int) : Nat → Chat → List Message → Chat
  | _, c, [] => c
  | k, c, m :: rest =>
    if m.header.id ∈ c.message_history then
      sendMessagesLoop clock k c rest
    else
      let m' := { m with header := { m.header with timestamp := some (clock k) } }
      sendMessagesLoop clock (k + 1) (storeMessage c m') rest

/-- `Chat.send_messages` (chat.py:277-296). -/
def sendMessages (clock : Nat → Int) (c : Chat) (msgs : List Message) : Chat :=
  sendMessagesLoop clock 0 c msgs

/-- `Chat.store_replicated_messages` (chat.py:298-309): like
`send_messages` but without the timestamp overwrite and without the
message event. -/
def storeReplicatedMessages : Chat → List Message → Chat
  | c, [] => c
  | c, m :: rest =>
    if m.header.id ∈ c.message_history then storeReplicatedMessages c rest
    else storeReplicatedMessages (storeMessage c m) rest

/-- `Chat.expired` (chat.py:136-145): Python `if start and max_duration`
is integer truthiness, i.e. both nonzero. -/
def Chat.expired (c : Chat) (now : Int) : Bool :=
  decide (c.state.startTimestamp ≠ 0) && decide (c.state.maxDuration ≠ 0) &&
    decide (now > c.state.startTimestamp + c.state.maxDuration + c.expiration_threshold)

/-- Python errors surfaced by the embedded code paths. -/
inductive PyErr
  | attributeError
deriving DecidableEq, Repr

/-- `Chat._filter_messages` (chat.py:82-97).  NO_ROUTE messages are skipped.
For TARGETED_ROUTE messages the code evaluates
`user_id and user_id not in message.header.route.recpiients`: with a falsy
`user_id` (`None` or `0`) the conjunction short-circuits and the message is
kept; with a truthy `user_id` the attribute access raises `AttributeError`,
because `MessageRoute` defines `recipients` (so the tests read it), not
`recpiients`.  A message whose `route` is `None` likewise raises on
`route.type`. -/
def filterMessages : List Message → Option Nat → Except PyErr (List Message)
  | [], _ => .ok []
  | m :: rest, userId =>
    match m.header.route with
    | none => .error .attributeError
    | some r =>
      if r.type = .NO_ROUTE then
        filterMessages rest userId
      else if r.type = .TARGETED_ROUTE then
        match userId with
        | some u =>
          if u ≠ 0 then .error .attributeError
          else (filterMessages rest userId).map (m :: ·)
        | none => (filterMessages rest userId).map (m :: ·)
      else (filterMessages rest userId).map (m :: ·)

/-- `Chat.get_messages` (chat.py:232-275), non-blocking result.  With
`asOf` given, slice the message list at the `bisect` index and filter only
when `user_id is not None`.  The blocking branch recomputes exactly this
slice/filter after waiting, so the returned value is this function at the
state observed on wake-up.  With `asOf=None` the code reads
`self.self.state.messages`, which raises `AttributeError` (noted as an open
question in the spec). -/
def getMessages (c : Chat) (asOf : Option Int) (userId : Option Nat) :
    Except PyErr (List Message) :=
  match asOf with
  | some t =>
    let index := bisectRight c.message_timestamps (some t)
    let msgs := c.state.messages.drop index
    match userId with
    | none => .ok msgs
    | some u => filterMessages msgs (some u)
  | none => .error .attributeError

/-- Modelled from the spec: thrift struct `ChatSnapshot`
`{fullSnapshot, state}` (external; built in `Replicator._build_chat_snapshot`,
replication.py:280-311). -/
structure ChatSnapshot where
  fullSnapshot : Bool
  state : ChatState
deriving DecidableEq, Repr

/-- Scalar-field overwrite performed by the inbound replicate RPC
(`ChatServiceHandler.replicate`, handler.py:427-443): every field of the
snapshot state except `token` and `messages` is copied over the local
state. -/
def setSnapshotScalars (c : Chat) (snap : ChatSnapshot) : Chat :=
  { c with state :=
    { c.state with
      status := snap.state.status
      maxDuration := snap.state.maxDuration
      maxParticipants := snap.state.maxParticipants
      startTimestamp := snap.state.startTimestamp
      endTimestamp := snap.state.endTimestamp
      users := snap.state.users
      persisted := snap.state.persisted
      session := snap.state.session } }

/-- `ChatServiceHandler.replicate` (handler.py:427-443) applied to the local
chat for the snapshot's token: overwrite the scalar state fields, then
`store_replicated_messages(snapshot.state.messages)`. -/
def replicateMerge (c : Chat) (snap : ChatSnapshot) : Chat :=
  storeReplicatedMessages (setSnapshotScalars c snap) snap.state.messages

/-- Normalization phase of `MessageHandlerManager._default_handle`
(message_handlers/manager.py:82-98): compute `skew` from a client-provided
timestamp, overwrite `header.timestamp` with the server clock reading
`now`, assign the uuid `freshId` when `header.id` is missing, and default
the route to BROADCAST_ROUTE. -/
def normalizeMessage (now : Int) (freshId : String) (m : Message) : Message :=
  let skew := match m.header.timestamp with
    | none => 0
    | some t => t - now
  let m := { m with header := { m.header with skew := skew, timestamp := some now } }
  let m := match m.header.id with
    | none => { m with header := { m.header with id := some freshId } }
    | some _ => m
  match m.header.route with
  | none => { m with header :=
      { m.header with route := some { type := .BROADCAST_ROUTE } } }
  | some _ => m

/-- `MessageHandlerManager._default_handle` (message_handlers/manager.py:74-103):
normalize the message, then gate on the type.  USER_STATUS and CHAT_STATUS
always pass; every other type evaluates `chat.active`, and the `Chat` class
of chat.py defines no `active` attribute (only the older `ChatSession` of
session.py does), so the access raises `AttributeError`, which `handle()`
wraps into a `MessageHandlerException` — modelled as `.error ()`. -/
def defaultHandle (now : Int) (freshId : String) (m : Message) :
    Except Unit Message :=
  let m := normalizeMessage now freshId m
  if m.header.type = .USER_STATUS ∨ m.header.type = .CHAT_STATUS then .ok m
  else .error ()

/-- `StatusMessageHandler._handle_chat_status`
(message_handlers/status.py:35-47): two sequential `if`s advancing
PENDING→STARTED and STARTED→ENDED and recording the message timestamp.
`chat.save()` only writes the database row; it does not change in-memory
state.  The handler runs on messages normalized by `_default_handle`, whose
`header.timestamp` is always set; `getD 0` covers the unreachable `none`. -/
def handleChatStatus (c : Chat) (m : Message) : Except Unit Chat :=
  match m.chatStatusMessage with
  | none => .error ()
  | some payload =>
    let ts := m.header.timestamp.getD 0
    let c :=
      if c.state.status = .PENDING ∧ payload.status = .STARTED then
        { c with state := { c.state with status := payload.status, startTimestamp := ts } }
      else c
    let c :=
      if c.state.status = .STARTED ∧ payload.status = .ENDED then
        { c with state := { c.state with status := payload.status, endTimestamp := ts } }
      else c
    .ok c

/-- `StatusMessageHandler._handle_user_status`
(message_handlers/status.py:49-62): when no state exists for
`msg.userId`, a fresh `UserState` is created and stored under
`request_context.userId` (the key the code actually uses); in both cases
the (shared) state object ends with `status := msg.status` and
`updateTimestamp := message.header.timestamp`. -/
def handleUserStatus (ctxUserId : Nat) (c : Chat) (m : Message) : Except Unit Chat :=
  match m.userStatusMessage with
  | none => .error ()
  | some payload =>
    let ts := m.header.timestamp.getD 0
    match dictGet c.state.users payload.userId with
    | none =>
      let st : UserState := { userId := payload.userId, status := payload.status,
                              updateTimestamp := ts }
      .ok { c with state := { c.state with users := dictSet c.state.users ctxUserId st } }
    | some st =>
      let st := { st with status := payload.status, updateTimestamp := ts }
      .ok { c with state := { c.state with users := dictSet c.state.users payload.userId st } }

/-- `MessageHandlerManager.handle` (message_handlers/manager.py:105-141):
run `_default_handle`, then the handlers registered for the message type.
Only CHAT_STATUS and USER_STATUS survive the default gate, and
`StatusMessageHandler` (which returns no additional messages) is the sole
handler registered for them, so the additional-message list is empty. -/
def handleMsg (now : Int) (freshId : String) (ctxUserId : Nat) (c : Chat)
    (m : Message) : Except Unit (Chat × Message) :=
  match defaultHandle now freshId m with
  | .error _ => .error ()
  | .ok m' =>
    match
      (if m'.header.type = .CHAT_STATUS then handleChatStatus c m'
       else if m'.header.type = .USER_STATUS then handleUserStatus ctxUserId c m'
       else .ok c) with
    | .error _ => .error ()
    | .ok c' => .ok (c', m')

/-- Errors surfaced at the RPC boundary (handler.py). -/
inductive SendErr
  | invalidChat
  | invalidMessage
  | unavailable
deriving DecidableEq, Repr

/-- Local path of `ChatServiceHandler.sendMessage` (handler.py:347-393),
given the (loaded) chat for the token: reject expired chats as
`InvalidChat`; run the handler manager (a `MessageHandlerException`
surfaces as `InvalidMessage`); `chat.send_messages` the message list
(`[message]` plus the handler's additional messages, always `[]` here);
then submit the same list to the replicator and block on the result —
`repOk = false` stands for a replication error or timeout, surfaced as
`Unavailable`.  The second component is the message list handed to
`replicator.replicate`: `[]` when the send aborted before the replication
call. -/
def sendMessageLocal (now : Int) (clock : Nat → Int) (freshId : String)
    (ctxUserId : Nat) (repOk : Bool) (c : Chat) (m : Message) :
    Except SendErr (Chat × Message) × List Message :=
  if c.expired now then (.error .invalidChat, [])
  else
    match handleMsg now freshId ctxUserId c m with
    | .error _ => (.error .invalidMessage, [])
    | .ok (c', m') =>
      let msgs := [m']
      let c'' := sendMessages clock c' msgs
      if repOk then (.ok (c'', m'), msgs) else (.error .unavailable, msgs)

/-- `MessageHandlerManager._build_user_status_message`
(message_handlers/manager.py:174-185): header without id or timestamp,
BROADCAST route, `userId=0`, with a `UserStatusMessage` payload. -/
def buildUserStatusMessage (c : Chat) (userId : Nat) (status : UserStatus) : Message :=
  { header :=
      { id := none
        type := .USER_STATUS
        chatToken := c.state.token
        userId := 0
        timestamp := none
        skew := 0
        route := some { type := .BROADCAST_ROUTE } }
    userStatusMessage := some { userId := userId, status := status } }

/-- `MessageHandlerManager.handle_poll` (message_handlers/manager.py:143-172):
refresh the polling user's `updateTimestamp` (the dict `get` returns the
stored object, which is mutated in place), then emit a USER_STATUS
UNAVAILABLE message for every user state whose status is not UNAVAILABLE
and whose `updateTimestamp` lies more than 20 seconds in the past. -/
def handlePoll (now : Int) (ctxUserId : Nat) (c : Chat) : Chat × List Message :=
  let users :=
    match dictGet c.state.users ctxUserId with
    | some st => dictSet c.state.users ctxUserId { st with updateTimestamp := now }
    | none => c.state.users
  let c := { c with state := { c.state with users := users } }
  let msgs := users.filterMap fun kv =>
    if kv.2.status ≠ .UNAVAILABLE ∧ now - kv.2.updateTimestamp > 20 then
      some (buildUserStatusMessage c kv.2.userId .UNAVAILABLE)
    else none
  (c, msgs)

/-- The loop in `ChatServiceHandler.getMessages` (handler.py:307-311) that
feeds every message produced by `handle_poll` back through `sendMessage`
(the single-node local path).  An `InvalidChatException` from the inner
send is re-raised as `InvalidChat` by the enclosing handler; any other
exception falls to the generic handler and surfaces as `Unavailable`.
`clocks i` and `freshIds i` supply the i-th send's clock readings and
uuid. -/
def pollSends (now : Int) (clocks : Nat → Nat → Int) (freshIds : Nat → String)
    (ctxUserId : Nat) (repOk : Bool) : Nat → Chat → List Message → Except SendErr Chat
  | _, c, [] => .ok c
  | i, c, m :: rest =>
    match sendMessageLocal now (clocks i) (freshIds i) ctxUserId repOk c m with
    | (.ok (c', _), _) => pollSends now clocks freshIds ctxUserId repOk (i + 1) c' rest
    | (.error .invalidChat, _) => .error .invalidChat
    | (.error _, _) => .error .unavailable

/-- Local path of `ChatServiceHandler.getMessages` (handler.py:274-320),
given the loaded chat: reject expired chats as `InvalidChat`; run
`handle_poll` and send each produced message; then read
`chat.get_messages(asOf, block, timeout, requestContext.userId)`.  The
`AttributeError` escaping `get_messages` is caught by the generic handler
and surfaces as `Unavailable`. -/
def getMessagesLocal (now : Int) (clocks : Nat → Nat → Int) (freshIds : Nat → String)
    (ctxUserId : Nat) (repOk : Bool) (c : Chat) (asOf : Option Int) :
    Except SendErr (List Message) :=
  if c.expired now then .error .invalidChat
  else
    let pc := handlePoll now ctxUserId c
    match pollSends now clocks freshIds ctxUserId repOk 0 pc.1 pc.2 with
    | .error e => .error e
    | .ok c' =>
      match getMessages c' asOf (some ctxUserId) with
      | .ok msgs => .ok msgs
      | .error _ => .error .unavailable

/-- A row of the external metadata store (`trsvcscore.db.models.Chat`),
modelled from the spec: numeric id, `max_duration`, `max_participants` and
optional start/end times (already converted to unix seconds; the model's
`end` field is named `endTime` because `end` is reserved). -/
structure ChatModelRow where
  id : Int
  max_duration : Int
  max_participants : Int
  startTime : Option Int
  endTime : Option Int
deriving DecidableEq, Repr

/-- `Chat.load` (chat.py:147-185) for a reachable metadata store.  On a
found row the scalar fields are copied; note that for an ended chat the
code writes `self.state.endTimesamp` (chat.py:168) — a misspelled,
previously nonexistent attribute — so `state.endTimestamp` keeps its value.
On `NoResultFound` the code sets and clears `loaded_event` and then falls
through, without raising, to the final `loaded_event.set()`: the chat comes
back marked loaded with its constructor-default state. -/
def chatLoad (store : String → Option ChatModelRow) (c : Chat) : Chat :=
  if c.loaded then c
  else
    match store c.state.token with
    | some row =>
      let c := { c with
        id := some row.id
        state := { c.state with
          maxDuration := row.max_duration
          maxParticipants := row.max_participants } }
      let c :=
        match row.endTime with
        | some _ =>
          { c with state := { c.state with
              status := .ENDED
              startTimestamp := row.startTime.getD 0 } }
        | none =>
          match row.startTime with
          | some s =>
            { c with state := { c.state with status := .STARTED, startTimestamp := s } }
          | none => c
      { c with loaded := true }
    | none => { c with loaded := true }

/-- `ChatManager.get` (chat.py:337-359): create-if-absent, load, and return
the chat; a load exception removes the chat and raises `KeyError`
(modelled `.error ()`), which `sendMessage`/`getMessages` surface as
`InvalidChat`.  In the modelled store branches (`found` and
`NoResultFound`) `chatLoad` never raises, so the error branch is never
taken. -/
def managerGet (store : String → Option ChatModelRow)
    (mgr : List (String × Chat)) (token : String) :
    List (String × Chat) × Except Unit Chat :=
  match mgr.find? (fun kv => kv.1 = token) with
  | none =>
    let chat := chatLoad store (newChat token)
    ((token, chat) :: mgr, .ok chat)
  | some kv => (mgr, .ok kv.2)

/-- `ReplicationAsyncResult` (replication.py:37-139).  `outcome` records the
first settling of the underlying `gevent` `AsyncResult`: `some true` once
`set()` has been called W times, `some false` once `set_exception()` has
been called more than `maxErrors` times or `fail()` was invoked. -/
structure RepResult where
  N : Int
  W : Int
  maxErrors : Nat
  values : Nat
  errors : Nat
  outcome : Option Bool
deriving DecidableEq, Repr

/-- `ReplicationAsyncResult.w_satisfied` (replication.py:115-122). -/
def RepResult.wSatisfied (r : RepResult) : Bool := decide ((r.values : Int) ≥ r.W)

/-- `ReplicationAsyncResult.n_satisfied` (replication.py:124-131). -/
def RepResult.nSatisfied (r : RepResult) : Bool := decide ((r.values : Int) ≥ r.N)

/-- `ReplicationAsyncResult.set` (replication.py:85-93): append the value;
fire the result once W values are in. -/
def RepResult.setValue (r : RepResult) : RepResult :=
  let r := { r with values := r.values + 1 }
  if r.wSatisfied ∧ r.outcome = none then { r with outcome := some true } else r

/-- `ReplicationAsyncResult.set_exception` (replication.py:95-103): append
the exception; fail the result once more than `maxErrors` are in. -/
def RepResult.setExc (r : RepResult) : RepResult :=
  let r := { r with errors := r.errors + 1 }
  if r.errors > r.maxErrors ∧ r.outcome = none then { r with outcome := some false } else r

/-- `ReplicationAsyncResult.fail` (replication.py:105-113). -/
def RepResult.failNow (r : RepResult) : RepResult :=
  if r.outcome = none then { r with outcome := some false } else r

/-- `GreenletPoolReplicator.replicate` (replication.py:722-768): normalize
`N`/`W` (`None` or `-1` pick the service defaults), build a
`ReplicationAsyncResult` with `max_errors = 2`, count the local copy as one
success upfront via `result.set(None)`, and enqueue a job only when
`N > 1`.  Returns the result and the enqueued flag. -/
def replicateStart (selfN selfW : Int) (N W : Option Int) : RepResult × Bool :=
  let n := match N with
    | none => selfN
    | some v => if v = -1 then selfN else v
  let w := match W with
    | none => selfW
    | some v => if v = -1 then selfW else v
  let r : RepResult := { N := n, W := w, maxErrors := 2, values := 0, errors := 0,
                         outcome := none }
  (r.setValue, decide (n > 1))

/-- One entry of the replication preference list as the coordinator sees
it: the peer's `service_info.key` and whether the `proxy.replicate` call to
it succeeds (`Replicator._replicate_to_node`, replication.py:537-570, calls
`result.set(None)` on success and `result.set_exception(...)` on any
failure). -/
structure RNode where
  key : String
  sendOk : Bool
deriving DecidableEq, Repr

/-- Outcome of one remote send applied to the result
(`Replicator._replicate_to_node`, replication.py:537-570). -/
def applySend (r : RepResult) (ok : Bool) : RepResult :=
  if ok then r.setValue else r.setExc

/-- Walk of `Replicator._coordinate_replication` (replication.py:433-535),
sequentialized: the loop stops when the preference queue is empty or
`n_satisfied`; local nodes are skipped; each remote node's send settles
into the result. -/
def coordinateLoop (selfKey : String) : List RNode → RepResult → RepResult
  | [], r => r
  | n :: rest, r =>
    if r.nSatisfied then r
    else if n.key ≠ selfKey then coordinateLoop selfKey rest (applySend r n.sendOk)
    else coordinateLoop selfKey rest r

/-- `Replicator._coordinate_replication` (replication.py:433-535): after the
walk and the join of outstanding sends, a result that satisfies neither N
nor W is failed with a quorum error (`result.fail`); `W ≤ successes < N`
only logs a warning. -/
def coordinate (selfKey : String) (nodes : List RNode) (r : RepResult) : RepResult :=
  let r := coordinateLoop selfKey nodes r
  if r.nSatisfied then r
  else if r.wSatisfied then r
  else r.failNow

/-! ## Derived observers, invariants and claim-side predicates -/

/-- Sortedness of the `message_timestamps` list under the Python ordering:
no later element is smaller than an earlier one. -/
def TsSorted (l : List (Option Int)) : Prop :=
  l.Pairwise (fun a b => pyLt b a = false)

/-- The per-chat data invariant that `_store_message` maintains:
`message_timestamps` is exactly the `header.timestamp` column of
`state.messages`; it is sorted (non-strictly — equal timestamps sit next to
each other); stored message ids are distinct; and the keys of
`message_history` are exactly the stored ids. -/
structure ChatInv (c : Chat) : Prop where
  ts_eq : c.message_timestamps = c.state.messages.map (fun m => m.header.timestamp)
  sorted : TsSorted c.message_timestamps
  ids_nodup : (c.state.messages.map (fun m => m.header.id)).Nodup
  hist_perm : c.message_history.Perm (c.state.messages.map (fun m => m.header.id))

/-- Strict sortedness by timestamp, as the spec's invariant 1 words it
("sorted strictly by `header.timestamp`"). -/
def SpecStrictlySorted (l : List (Option Int)) : Prop :=
  l.Pairwise (fun a b => pyLt a b = true)

/-- Position of a status in the PENDING → STARTED → ENDED progression. -/
def statusRank : ChatStatus → Nat
  | .PENDING => 0
  | .STARTED => 1
  | .ENDED => 2

/-- The chat state observable after a send: the updated chat on success;
on an error the Python exception propagates before any mutation, leaving
the caller's chat as it was. -/
def sendResultChat (r : Except SendErr (Chat × Message)) (c : Chat) : Chat :=
  match r with
  | .ok p => p.1
  | .error _ => c

/-- The fields `Chat.expired` reads. -/
def expiryData (c : Chat) : Int × Int × Int :=
  (c.state.startTimestamp, c.state.maxDuration, c.expiration_threshold)

/-- The route type of a message, when a route is present. -/
def routeType (m : Message) : Option MessageRouteType :=
  m.header.route.map (fun r => r.type)

/-- Spec wording of claim C8: "expired exactly when `endTimestamp > 0` and
`now() > endTimestamp + maxDuration + EXPIRATION_GRACE`". -/
def specC8Expired (c : Chat) (now : Int) : Bool :=
  decide (c.state.endTimestamp > 0) &&
    decide (now > c.state.endTimestamp + c.state.maxDuration + c.expiration_threshold)

/-- What `Chat.expired` actually tests (amended claim C8): `startTimestamp`
and `maxDuration` nonzero and `now()` past
`startTimestamp + maxDuration + EXPIRATION_GRACE`. -/
def specC8AmendedExpired (c : Chat) (now : Int) : Bool :=
  decide (c.state.startTimestamp ≠ 0) && decide (c.state.maxDuration ≠ 0) &&
    decide (now > c.state.startTimestamp + c.state.maxDuration + c.expiration_threshold)

/-- Invariant of `ReplicationAsyncResult` as driven by
`set`/`set_exception`: the parameters are fixed, an unsettled result has
fewer than W values, a successful one has at least W, and one failed by
`set_exception` has more than `maxErrors = 2` errors. -/
def RepInv (w : Int) (r : RepResult) : Prop :=
  r.W = w ∧ r.maxErrors = 2 ∧
    (r.outcome = none → (r.values : Int) < w) ∧
    (r.outcome = some true → (r.values : Int) ≥ w) ∧
    (r.outcome = some false → r.errors > 2)

/-! ## Concrete inputs used by counterexamples and witnesses -/

/-- A BROADCAST message with timestamp 5 and id "a". -/
def c1MsgA : Message :=
  { header := { id := some "a", type := .TAG_CREATE, chatToken := "t", userId := 1,
                timestamp := some 5, skew := 0,
                route := some { type := .BROADCAST_ROUTE } } }

/-- A BROADCAST message with the same timestamp 5 and id "b". -/
def c1MsgB : Message :=
  { header := { id := some "b", type := .TAG_CREATE, chatToken := "t", userId := 2,
                timestamp := some 5, skew := 0,
                route := some { type := .BROADCAST_ROUTE } } }

/-- Chat state after replicating two distinct messages bearing the same
timestamp into a fresh chat. -/
def c1Chat : Chat := storeReplicatedMessages (newChat "t") [c1MsgA, c1MsgB]

/-- Replication result of a job with N = W = 2 whose single remote peer
fails: quorum cannot be met after one failed send. -/
def c2Final : RepResult :=
  coordinate "self" [{ key := "peer", sendOk := false }]
    (replicateStart 2 2 (some (-1)) (some (-1))).1

/-- A NO_ROUTE message with timestamp 5. -/
def c3Msg : Message :=
  { header := { id := some "n", type := .TAG_CREATE, chatToken := "t", userId := 1,
                timestamp := some 5, skew := 0,
                route := some { type := .NO_ROUTE } } }

/-- Chat holding a single stored NO_ROUTE message. -/
def c3Chat : Chat := storeReplicatedMessages (newChat "t") [c3Msg]

/-- A TARGETED_ROUTE message with recipients `[8]` and timestamp 5. -/
def c3TMsg : Message :=
  { header := { id := some "tt", type := .TAG_CREATE, chatToken := "t", userId := 1,
                timestamp := some 5, skew := 0,
                route := some { type := .TARGETED_ROUTE, recipients := [8] } } }

/-- Chat holding a single stored TARGETED_ROUTE message. -/
def c3TChat : Chat := storeReplicatedMessages (newChat "t") [c3TMsg]

/-- A USER_STATUS message with id "a". -/
def c4Orig : Message :=
  { header := { id := some "a", type := .USER_STATUS, chatToken := "t", userId := 7,
                timestamp := some 3, skew := 0,
                route := some { type := .BROADCAST_ROUTE } }
    userStatusMessage := some { userId := 7, status := .AVAILABLE } }

/-- Chat that already stores the message with id "a". -/
def c4Chat : Chat := storeReplicatedMessages (newChat "t") [c4Orig]

/-- Outcome of re-sending the already-stored message to its chat. -/
def c4Result : Except SendErr (Chat × Message) × List Message :=
  sendMessageLocal 10 (fun _ => 11) "f" 7 true c4Chat c4Orig

/-- A snapshot whose chat state is STARTED. -/
def c6SnapStarted : ChatSnapshot :=
  { fullSnapshot := true
    state := { token := "t", status := .STARTED, maxDuration := 0, maxParticipants := 0,
               startTimestamp := 1, endTimestamp := 0, users := [], persisted := false,
               session := [], messages := [] } }

/-- The same snapshot state, but PENDING. -/
def c6SnapPending : ChatSnapshot :=
  { fullSnapshot := true
    state := { token := "t", status := .PENDING, maxDuration := 0, maxParticipants := 0,
               startTimestamp := 1, endTimestamp := 0, users := [], persisted := false,
               session := [], messages := [] } }

/-- Chat with `endTimestamp = 5 > 0` and `maxDuration = 10` but
`startTimestamp = 0`, reached by merging an ENDED snapshot. -/
def c8Chat : Chat :=
  replicateMerge (newChat "t")
    { fullSnapshot := true
      state := { token := "t", status := .ENDED, maxDuration := 10, maxParticipants := 2,
                 startTimestamp := 0, endTimestamp := 5, users := [], persisted := false,
                 session := [], messages := [] } }

/-- A STARTED, not ended chat, reached by merging a STARTED snapshot. -/
def c9Chat : Chat :=
  replicateMerge (newChat "t")
    { fullSnapshot := true
      state := { token := "t", status := .STARTED, maxDuration := 0, maxParticipants := 0,
                 startTimestamp := 1, endTimestamp := 0, users := [], persisted := false,
                 session := [], messages := [] } }

/-- A marker message addressed to the STARTED chat. -/
def c9Marker : Message :=
  { header := { id := some "m1", type := .MARKER_CREATE, chatToken := "t", userId := 4,
                timestamp := some 2, skew := 0,
                route := some { type := .BROADCAST_ROUTE } } }

/-- A users map with two well-keyed entries, both last updated at time 0. -/
def c10Users : List (Nat × UserState) :=
  [(1, { userId := 1, status := .AVAILABLE, updateTimestamp := 0 }),
   (2, { userId := 2, status := .AVAILABLE, updateTimestamp := 0 })]

/-- Chat carrying the two-user map. -/
def c10Chat : Chat :=
  { newChat "t" with state := { (newChat "t").state with users := c10Users } }

/-! ## Ordering and insertion lemmas -/

theorem pyLt_asymm {x y : Option Int} (h : pyLt x y = true) : pyLt y x = false := by
  cases x <;> cases y <;> simp_all [pyLt] <;> omega

theorem pyLt_lt_of_lt_of_not_lt {x a b : Option Int} (h₁ : pyLt x a = true)
    (h₂ : pyLt b a = false) : pyLt x b = true := by
  cases x <;> cases a <;> cases b <;> simp_all [pyLt] <;> omega

theorem pyLt_not_lt_of_lt_of_not_lt {x a b : Option Int} (h₁ : pyLt x a = true)
    (h₂ : pyLt b a = false) : pyLt b x = false := by
  cases x <;> cases a <;> cases b <;> simp_all [pyLt] <;> omega

theorem mem_pyInsert {α : Type} {y x : α} :
    ∀ (n : Nat) (l : List α), y ∈ pyInsert n x l ↔ y = x ∨ y ∈ l := by
  intro n
  induction n with
  | zero => intro l; simp [pyInsert]
  | succ n ih =>
    intro l
    cases l with
    | nil => simp [pyInsert]
    | cons a l => simp [pyInsert, ih l]; tauto

theorem map_pyInsert {α β : Type} (f : α → β) (x : α) :
    ∀ (n : Nat) (l : List α), (pyInsert n x l).map f = pyInsert n (f x) (l.map f) := by
  intro n
  induction n with
  | zero => intro l; simp [pyInsert]
  | succ n ih =>
    intro l
    cases l with
    | nil => simp [pyInsert]
    | cons a l => simp [pyInsert, ih l]

theorem pyInsert_perm {α : Type} (x : α) :
    ∀ (n : Nat) (l : List α), (pyInsert n x l).Perm (x :: l) := by
  intro n
  induction n with
  | zero => intro l; simp [pyInsert]
  | succ n ih =>
    intro l
    cases l with
    | nil => simp [pyInsert]
    | cons a l => exact ((ih l).cons a).trans (List.Perm.swap x a l)

theorem length_pyInsert {α : Type} (x : α) (n : Nat) (l : List α) :
    (pyInsert n x l).length = l.length + 1 := by
  simpa using (pyInsert_perm x n l).length_eq

theorem tsSorted_pyInsert (x : Option Int) :
    ∀ l, TsSorted l → TsSorted (pyInsert (bisectRight l x) x l) := by
  intro l
  induction l with
  | nil => intro _; simp [bisectRight, pyInsert, TsSorted]
  | cons a l ih =>
    intro h
    rw [TsSorted, List.pairwise_cons] at h
    by_cases hxa : pyLt x a = true
    · simp only [bisectRight, hxa, if_pos, pyInsert, TsSorted]
      rw [List.pairwise_cons]
      constructor
      · intro b hb
        rcases List.mem_cons.mp hb with rfl | hbl
        · exact pyLt_asymm hxa
        · exact pyLt_not_lt_of_lt_of_not_lt hxa (h.1 b hbl)
      · exact List.pairwise_cons.mpr h
    · rw [Bool.not_eq_true] at hxa
      simp only [bisectRight, hxa, Bool.false_eq_true, if_false, pyInsert, TsSorted]
      rw [List.pairwise_cons]
      constructor
      · intro b hb
        rcases (mem_pyInsert _ _).mp hb with rfl | hbl
        · exact hxa
        · exact h.1 b hbl
      · exact ih h.2

theorem chatInv_newChat (token : String) : ChatInv (newChat token) := by
  constructor <;> simp [newChat, TsSorted]

theorem chatInv_storeMessage {c : Chat} (h : ChatInv c) (m : Message) :
    ChatInv (storeMessage c m) := by
  rw [storeMessage]
  by_cases hmem : m.header.id ∈ c.message_history
  · simpa [hmem] using h
  · have hid : m.header.id ∉ c.state.messages.map (fun m => m.header.id) :=
      fun hx => hmem (h.hist_perm.mem_iff.mpr hx)
    simp only [hmem, if_false]
    constructor
    · simp only [map_pyInsert, ← h.ts_eq]
    · exact tsSorted_pyInsert _ _ h.sorted
    · rw [map_pyInsert]
      exact ((pyInsert_perm _ _ _).nodup_iff).mpr (List.nodup_cons.mpr ⟨hid, h.ids_nodup⟩)
    · rw [map_pyInsert]
      exact (h.hist_perm.append_right _).trans
        ((List.perm_append_singleton _ _).trans (pyInsert_perm _ _ _).symm)

theorem chatInv_sendMessagesLoop (clock : Nat → Int) :
    ∀ (msgs : List Message) (k : Nat) (c : Chat), ChatInv c →
      ChatInv (sendMessagesLoop clock k c msgs) := by
  intro msgs
  induction msgs with
  | nil => intro k c h; simpa [sendMessagesLoop] using h
  | cons m rest ih =>
    intro k c h
    rw [sendMessagesLoop]
    by_cases hmem : m.header.id ∈ c.message_history
    · simpa [hmem] using ih k c h
    · simp only [hmem, if_false]
      exact ih _ _ (chatInv_storeMessage h _)

theorem chatInv_sendMessages (clock : Nat → Int) {c : Chat} (h : ChatInv c)
    (msgs : List Message) : ChatInv (sendMessages clock c msgs) :=
  chatInv_sendMessagesLoop clock msgs 0 c h

theorem chatInv_storeReplicatedMessages :
    ∀ (msgs : List Message) (c : Chat), ChatInv c →
      ChatInv (storeReplicatedMessages c msgs) := by
  intro msgs
  induction msgs with
  | nil => intro c h; simpa [storeReplicatedMessages] using h
  | cons m rest ih =>
    intro c h
    rw [storeReplicatedMessages]
    by_cases hmem : m.header.id ∈ c.message_history
    · simpa [hmem] using ih c h
    · simp only [hmem, if_false]
      exact ih _ (chatInv_storeMessage h _)

theorem chatInv_lengths {c : Chat} (h : ChatInv c) :
    c.message_timestamps.length = c.state.messages.length ∧
      c.message_history.length = c.state.messages.length := by
  constructor
  · rw [h.ts_eq, List.length_map]
  · rw [h.hist_perm.length_eq, List.length_map]

/-! ## History-membership and scalar-frame lemmas -/

theorem storeMessage_history_mono {c : Chat} {m : Message} {x : Option String}
    (h : x ∈ c.message_history) : x ∈ (storeMessage c m).message_history := by
  unfold storeMessage
  split
  · exact h
  · simp [h]

theorem storeMessage_mem_self (c : Chat) (m : Message) :
    m.header.id ∈ (storeMessage c m).message_history := by
  unfold storeMessage
  split
  · assumption
  · simp

theorem storeReplicated_history_mono :
    ∀ (msgs : List Message) (c : Chat) (x : Option String),
      x ∈ c.message_history → x ∈ (storeReplicatedMessages c msgs).message_history := by
  intro msgs
  induction msgs with
  | nil => intro c x h; simpa [storeReplicatedMessages] using h
  | cons m rest ih =>
    intro c x h
    rw [storeReplicatedMessages]
    by_cases hm : m.header.id ∈ c.message_history
    · simpa [hm] using ih c x h
    · simp only [hm, if_false]
      exact ih _ x (storeMessage_history_mono h)

theorem storeReplicated_mem_all :
    ∀ (msgs : List Message) (c : Chat), ∀ m ∈ msgs,
      m.header.id ∈ (storeReplicatedMessages c msgs).message_history := by
  intro msgs
  induction msgs with
  | nil => intro c m hm; simp at hm
  | cons m rest ih =>
    intro c m' hm'
    rw [storeReplicatedMessages]
    rcases List.mem_cons.mp hm' with rfl | hrest
    · by_cases hm : m'.header.id ∈ c.message_history
      · simpa [hm] using storeReplicated_history_mono rest c _ hm
      · simp only [hm, if_false]
        exact storeReplicated_history_mono rest _ _ (storeMessage_mem_self c m')
    · by_cases hm : m.header.id ∈ c.message_history
      · simpa [hm] using ih c m' hrest
      · simp only [hm, if_false]
        exact ih _ m' hrest

theorem storeReplicated_noop :
    ∀ (msgs : List Message) (c : Chat),
      (∀ m ∈ msgs, m.header.id ∈ c.message_history) →
      storeReplicatedMessages c msgs = c := by
  intro msgs
  induction msgs with
  | nil => intro c _; rfl
  | cons m rest ih =>
    intro c h
    rw [storeReplicatedMessages]
    have hm : m.header.id ∈ c.message_history := h m (List.mem_cons_self m rest)
    simp only [hm, if_true]
    exact ih c (fun m' hm' => h m' (List.mem_cons_of_mem m hm'))

theorem setSnapshotScalars_idem (c : Chat) (snap : ChatSnapshot) :
    setSnapshotScalars (setSnapshotScalars c snap) snap = setSnapshotScalars c snap := rfl

theorem storeMessage_setSnapshotScalars (c : Chat) (snap : ChatSnapshot) (m : Message) :
    storeMessage (setSnapshotScalars c snap) m = setSnapshotScalars (storeMessage c m) snap := by
  unfold storeMessage setSnapshotScalars
  by_cases h : m.header.id ∈ c.message_history <;> simp [h]

theorem storeReplicated_setSnapshotScalars :
    ∀ (msgs : List Message) (c : Chat) (snap : ChatSnapshot),
      storeReplicatedMessages (setSnapshotScalars c snap) msgs =
        setSnapshotScalars (storeReplicatedMessages c msgs) snap := by
  intro msgs
  induction msgs with
  | nil => intro c snap; rfl
  | cons m rest ih =>
    intro c snap
    rw [storeReplicatedMessages, storeReplicatedMessages]
    by_cases h : m.header.id ∈ c.message_history
    · simpa [setSnapshotScalars, h] using ih c snap
    · simp only [setSnapshotScalars, h, if_false]
      rw [show (storeMessage
          { c with state :=
            { c.state with
              status := snap.state.status
              maxDuration := snap.state.maxDuration
              maxParticipants := snap.state.maxParticipants
              startTimestamp := snap.state.startTimestamp
              endTimestamp := snap.state.endTimestamp
              users := snap.state.users
              persisted := snap.state.persisted
              session := snap.state.session } } m) =
          setSnapshotScalars (storeMessage c m) snap from
        storeMessage_setSnapshotScalars c snap m]
      exact ih (storeMessage c m) snap

theorem storeMessage_scalar_frame (c : Chat) (m : Message) :
    (storeMessage c m).state.status = c.state.status ∧
    (storeMessage c m).state.startTimestamp = c.state.startTimestamp ∧
    (storeMessage c m).state.endTimestamp = c.state.endTimestamp ∧
    (storeMessage c m).state.maxDuration = c.state.maxDuration ∧
    (storeMessage c m).expiration_threshold = c.expiration_threshold ∧
    (storeMessage c m).state.users = c.state.users := by
  unfold storeMessage
  split <;> exact ⟨rfl, rfl, rfl, rfl, rfl, rfl⟩

theorem storeReplicated_scalar_frame :
    ∀ (msgs : List Message) (c : Chat),
      (storeReplicatedMessages c msgs).state.status = c.state.status ∧
      (storeReplicatedMessages c msgs).state.startTimestamp = c.state.startTimestamp ∧
      (storeReplicatedMessages c msgs).state.endTimestamp = c.state.endTimestamp ∧
      (storeReplicatedMessages c msgs).state.maxDuration = c.state.maxDuration ∧
      (storeReplicatedMessages c msgs).expiration_threshold = c.expiration_threshold := by
  intro msgs
  induction msgs with
  | nil => intro c; exact ⟨rfl, rfl, rfl, rfl, rfl⟩
  | cons m rest ih =>
    intro c
    rw [storeReplicatedMessages]
    by_cases h : m.header.id ∈ c.message_history
    · simpa [h] using ih c
    · simp only [h, if_false]
      obtain ⟨h1, h2, h3, h4, h5, _⟩ := storeMessage_scalar_frame c m
      obtain ⟨g1, g2, g3, g4, g5⟩ := ih (storeMessage c m)
      exact ⟨g1.trans h1, g2.trans h2, g3.trans h3, g4.trans h4, g5.trans h5⟩

theorem sendMessagesLoop_scalar_frame (clock : Nat → Int) :
    ∀ (msgs : List Message) (k : Nat) (c : Chat),
      (sendMessagesLoop clock k c msgs).state.status = c.state.status ∧
      (sendMessagesLoop clock k c msgs).state.startTimestamp = c.state.startTimestamp ∧
      (sendMessagesLoop clock k c msgs).state.endTimestamp = c.state.endTimestamp ∧
      (sendMessagesLoop clock k c msgs).state.maxDuration = c.state.maxDuration ∧
      (sendMessagesLoop clock k c msgs).expiration_threshold = c.expiration_threshold := by
  intro msgs
  induction msgs with
  | nil => intro k c; exact ⟨rfl, rfl, rfl, rfl, rfl⟩
  | cons m rest ih =>
    intro k c
    rw [sendMessagesLoop]
    by_cases h : m.header.id ∈ c.message_history
    · simpa [h] using ih k c
    · simp only [h, if_false]
      obtain ⟨h1, h2, h3, h4, h5, _⟩ := storeMessage_scalar_frame c
        { m with header := { m.header with timestamp := some (clock k) } }
      obtain ⟨g1, g2, g3, g4, g5⟩ := ih (k + 1) (storeMessage c
        { m with header := { m.header with timestamp := some (clock k) } })
      exact ⟨g1.trans h1, g2.trans h2, g3.trans h3, g4.trans h4, g5.trans h5⟩

/-! ## Claim theorems -/

/-- C5: the inbound replicate RPC is idempotent — merging the same
`ChatSnapshot` twice produces exactly the chat obtained by merging it once
(scalar fields are overwritten with the same values, and messages whose id
is already recorded are skipped by `store_replicated_messages`). -/
theorem claim_C5_replicate_idempotent (c : Chat) (snap : ChatSnapshot) :
    replicateMerge (replicateMerge c snap) snap = replicateMerge c snap := by
  unfold replicateMerge
  rw [← storeReplicated_setSnapshotScalars, setSnapshotScalars_idem]
  exact storeReplicated_noop _ _
    (fun m hm => storeReplicated_mem_all snap.state.messages _ m hm)

/-- C1 (counterexample): the message list is not sorted *strictly* by
`header.timestamp` — storing two distinct messages that carry the same
timestamp (as `store_replicated_messages` does for peer messages) yields
adjacent equal timestamps, on which `bisect.bisect` insertion imposes no
strict order. -/
theorem claim_C1_counterexample :
    ¬ SpecStrictlySorted (c1Chat.state.messages.map (fun m => m.header.timestamp)) := by
  unfold SpecStrictlySorted
  decide

/-- C1 (amended): at every observable state built by the inserting
operations the message list is sorted (non-strictly) by `header.timestamp`,
message ids are unique, and the message, timestamp and id collections have
equal sizes; `send_messages` and `store_replicated_messages` preserve all
of this, and a fresh chat satisfies it. -/
theorem claim_C1_invariants (token : String) (clock : Nat → Int) (c : Chat)
    (msgs msgs' : List Message) (h : ChatInv c) :
    ChatInv (newChat token) ∧ ChatInv (sendMessages clock c msgs) ∧
      ChatInv (storeReplicatedMessages c msgs') ∧
      c.message_timestamps.length = c.state.messages.length ∧
      c.message_history.length = c.state.messages.length :=
  ⟨chatInv_newChat token, chatInv_sendMessages clock h msgs,
    chatInv_storeReplicatedMessages msgs' c h,
    (chatInv_lengths h).1, (chatInv_lengths h).2⟩

/-- Witness for C1 at the two-message chat. -/
theorem claim_C1_invariants_witness :
    ChatInv (newChat "w") ∧ ChatInv (sendMessages (fun _ => 9) c1Chat [c1MsgA]) ∧
      ChatInv (storeReplicatedMessages c1Chat []) ∧
      c1Chat.message_timestamps.length = c1Chat.state.messages.length ∧
      c1Chat.message_history.length = c1Chat.state.messages.length :=
  claim_C1_invariants "w" (fun _ => 9) c1Chat [c1MsgA] []
    (chatInv_storeReplicatedMessages [c1MsgA, c1MsgB] (newChat "t") (chatInv_newChat "t"))

/-- C6 (counterexample): the inbound replicate merge copies the snapshot's
status unconditionally, so a STARTED chat regresses to PENDING when a stale
PENDING snapshot arrives. -/
theorem claim_C6_counterexample :
    (replicateMerge (newChat "t") c6SnapStarted).state.status = .STARTED ∧
    (replicateMerge (replicateMerge (newChat "t") c6SnapStarted)
        c6SnapPending).state.status = .PENDING :=
  ⟨rfl, rfl⟩

theorem handleChatStatus_status_mono {c : Chat} {m : Message} {c' : Chat}
    (h : handleChatStatus c m = .ok c') :
    statusRank c.state.status ≤ statusRank c'.state.status := by
  unfold handleChatStatus at h
  rcases hp : m.chatStatusMessage with _ | payload <;> rw [hp] at h
  · exact absurd h (by simp)
  · simp only [Except.ok.injEq] at h
    subst h
    cases hs : c.state.status <;> cases hps : payload.status <;>
      simp [hs, hps, statusRank]

theorem handleChatStatus_frame {c : Chat} {m : Message} {c' : Chat}
    (h : handleChatStatus c m = .ok c') :
    c'.state.messages = c.state.messages ∧ c'.message_timestamps = c.message_timestamps ∧
    c'.message_history = c.message_history ∧ c'.state.maxDuration = c.state.maxDuration ∧
    c'.expiration_threshold = c.expiration_threshold := by
  unfold handleChatStatus at h
  rcases hp : m.chatStatusMessage with _ | payload <;> rw [hp] at h
  · exact absurd h (by simp)
  · simp only [Except.ok.injEq] at h
    subst h
    split <;> split <;> exact ⟨rfl, rfl, rfl, rfl, rfl⟩

theorem handleUserStatus_frame {ctx : Nat} {c : Chat} {m : Message} {c' : Chat}
    (h : handleUserStatus ctx c m = .ok c') :
    c'.state.status = c.state.status ∧
    c'.state.startTimestamp = c.state.startTimestamp ∧
    c'.state.endTimestamp = c.state.endTimestamp ∧
    c'.state.maxDuration = c.state.maxDuration ∧
    c'.expiration_threshold = c.expiration_threshold ∧
    c'.state.messages = c.state.messages ∧
    c'.message_timestamps = c.message_timestamps ∧
    c'.message_history = c.message_history := by
  unfold handleUserStatus at h
  rcases hp : m.userStatusMessage with _ | payload <;> rw [hp] at h
  · exact absurd h (by simp)
  · dsimp only at h
    rcases hg : dictGet c.state.users payload.userId with _ | st <;> rw [hg] at h <;>
      dsimp only at h <;> simp only [Except.ok.injEq] at h <;> subst h <;>
      exact ⟨rfl, rfl, rfl, rfl, rfl, rfl, rfl, rfl⟩

theorem handleMsg_status_mono {now : Int} {freshId : String} {ctx : Nat}
    {c : Chat} {m : Message} {c' : Chat} {m' : Message}
    (h : handleMsg now freshId ctx c m = .ok (c', m')) :
    statusRank c.state.status ≤ statusRank c'.state.status := by
  unfold handleMsg at h
  rcases hd : defaultHandle now freshId m with e | m₀ <;> rw [hd] at h
  · exact absurd h (by simp)
  · simp only at h
    rcases hin : (if m₀.header.type = .CHAT_STATUS then handleChatStatus c m₀
        else if m₀.header.type = .USER_STATUS then handleUserStatus ctx c m₀
        else .ok c) with e | c₀ <;> rw [hin] at h
    · exact absurd h (by simp)
    · simp only [Except.ok.injEq, Prod.mk.injEq] at h
      obtain ⟨rfl, rfl⟩ := h
      by_cases ht : m₀.header.type = .CHAT_STATUS

      · rw [if_pos ht] at hin
        exact handleChatStatus_status_mono hin
      · rw [if_neg ht] at hin
        by_cases hu : m₀.header.type = .USER_STATUS
        · rw [if_pos hu] at hin
          exact le_of_eq (by rw [(handleUserStatus_frame hin).1])
        · rw [if_neg hu] at hin
          simp only [Except.ok.injEq] at hin
          subst hin
          exact le_refl _

/-- C6 (amended): the local send path (CHAT_STATUS handling included) only
ever advances the status along PENDING → STARTED → ENDED, while the inbound
replicate merge sets the status to the snapshot's status unconditionally
(and hence can regress it, as the counterexample shows). -/
theorem claim_C6_status_monotone (now : Int) (clock : Nat → Int) (freshId : String)
    (ctx : Nat) (repOk : Bool) (c : Chat) (m : Message) (snap : ChatSnapshot) :
    statusRank c.state.status ≤
      statusRank (sendResultChat
        (sendMessageLocal now clock freshId ctx repOk c m).1 c).state.status ∧
    (replicateMerge c snap).state.status = snap.state.status := by
  constructor
  · unfold sendMessageLocal
    by_cases hex : c.expired now = true
    · simp [hex, sendResultChat]
    · simp only [hex, if_false]
      rcases hh : handleMsg now freshId ctx c m with e | p
      · simp [sendResultChat]
      · obtain ⟨c', m'⟩ := p
        have hmono := handleMsg_status_mono hh
        by_cases hrep : repOk = true
        · simp only [hrep, if_true, Bool.false_eq_true, if_false, sendResultChat]
          rw [show sendMessages clock c' [m'] = sendMessagesLoop clock 0 c' [m'] from rfl,
            (sendMessagesLoop_scalar_frame clock [m'] 0 c').1]
          exact hmono
        · simp [hrep, sendResultChat]
  · unfold replicateMerge
    rw [(storeReplicated_scalar_frame snap.state.messages (setSnapshotScalars c snap)).1]
    rfl

/-- C7: `Chat.load` swallows `NoResultFound` — `ChatManager.get` on a token
absent from the metadata store returns a chat marked loaded with the
constructor-default PENDING state instead of raising, the chat stays in the
registry, and a later `get` serves the same already-"loaded" empty chat, so
no `InvalidChat` ever reaches the caller and no retry happens. -/
theorem claim_C7_missing_token_bug :
    ((managerGet (fun _ => none) [] "tok").2.toOption.map
        (fun c => (c.loaded, c.state.status, c.state.messages))) =
      some (true, .PENDING, []) ∧
    (managerGet (fun _ => none) [] "tok").1.map (fun kv => kv.1) = ["tok"] ∧
    ((managerGet (fun _ => none)
        (managerGet (fun _ => none) [] "tok").1 "tok").2.toOption.map
        (fun c => c.loaded)) = some true :=
  ⟨rfl, rfl, rfl⟩

theorem normalizeMessage_fields (now : Int) (f : String) (m : Message) :
    (normalizeMessage now f m).header.type = m.header.type ∧
    (normalizeMessage now f m).header.timestamp = some now ∧
    (normalizeMessage now f m).chatStatusMessage = m.chatStatusMessage ∧
    (normalizeMessage now f m).userStatusMessage = m.userStatusMessage := by
  rcases m with ⟨⟨id, ty, tok, uid, ts, sk, rt⟩, cs, us⟩
  cases id <;> cases rt <;> exact ⟨rfl, rfl, rfl, rfl⟩

theorem normalizeMessage_id_some (now : Int) (f : String) (m : Message) (i : String)
    (h : m.header.id = some i) : (normalizeMessage now f m).header.id = some i := by
  rcases m with ⟨⟨id, ty, tok, uid, ts, sk, rt⟩, cs, us⟩
  simp only at h
  subst h
  cases rt <;> rfl

theorem defaultHandle_status {now : Int} {f : String} {m : Message}
    (h : m.header.type = .USER_STATUS ∨ m.header.type = .CHAT_STATUS) :
    defaultHandle now f m = .ok (normalizeMessage now f m) := by
  unfold defaultHandle
  dsimp only
  rw [(normalizeMessage_fields now f m).1, if_pos h]

theorem defaultHandle_nonstatus {now : Int} {f : String} {m : Message}
    (h1 : m.header.type ≠ .USER_STATUS) (h2 : m.header.type ≠ .CHAT_STATUS) :
    defaultHandle now f m = .error () := by
  unfold defaultHandle
  dsimp only
  rw [(normalizeMessage_fields now f m).1, if_neg (by tauto)]

theorem sendMessageLocal_not_invalidChat {now : Int} {clock : Nat → Int} {freshId : String}
    {ctx : Nat} {repOk : Bool} {c : Chat} {m : Message} (h : c.expired now = false) :
    (sendMessageLocal now clock freshId ctx repOk c m).1 ≠ .error .invalidChat := by
  unfold sendMessageLocal
  rw [h]
  simp only [Bool.false_eq_true, if_false]
  rcases hh : handleMsg now freshId ctx c m with e | p
  · simp
  · obtain ⟨c', m'⟩ := p
    by_cases hrep : repOk = true <;> simp [hrep]

theorem expired_congr {c c' : Chat} (h : expiryData c' = expiryData c) (now : Int) :
    c'.expired now = c.expired now := by
  unfold expiryData at h
  simp only [Prod.mk.injEq] at h
  unfold Chat.expired
  rw [h.1, h.2.1, h.2.2]

theorem handleMsg_ok_expiry {now : Int} {freshId : String} {ctx : Nat}
    {c : Chat} {m : Message} {c₂ : Chat} {m₂ : Message}
    (htype : m.header.type ≠ .CHAT_STATUS)
    (h : handleMsg now freshId ctx c m = .ok (c₂, m₂)) :
    expiryData c₂ = expiryData c := by
  unfold handleMsg at h
  rcases hd : defaultHandle now freshId m with e | m₀ <;> rw [hd] at h
  · exact absurd h (by simp)
  · dsimp only at h
    have ht0 : m₀.header.type = m.header.type := by
      unfold defaultHandle at hd
      by_cases hif : ((normalizeMessage now freshId m).header.type = .USER_STATUS ∨
          (normalizeMessage now freshId m).header.type = .CHAT_STATUS)
      · rw [if_pos hif] at hd
        simp only [Except.ok.injEq] at hd
        rw [← hd]
        exact (normalizeMessage_fields now freshId m).1
      · rw [if_neg hif] at hd
        exact absurd hd (by simp)
    rw [if_neg (by rw [ht0]; exact htype)] at h
    by_cases hu : m₀.header.type = .USER_STATUS
    · rw [if_pos hu] at h
      rcases hus : handleUserStatus ctx c m₀ with e | c₀ <;> rw [hus] at h
      · exact absurd h (by simp)
      · simp only [Except.ok.injEq, Prod.mk.injEq] at h
        obtain ⟨rfl, rfl⟩ := h
        obtain ⟨_, h2, _, h4, h5, _⟩ := handleUserStatus_frame hus
        unfold expiryData
        rw [h2, h4, h5]
    · rw [if_neg hu] at h
      simp only [Except.ok.injEq, Prod.mk.injEq] at h
      obtain ⟨rfl, rfl⟩ := h
      rfl

theorem sendMessagesLoop_expiry (clock : Nat → Int) (msgs : List Message) (k : Nat)
    (c : Chat) : expiryData (sendMessagesLoop clock k c msgs) = expiryData c := by
  obtain ⟨_, h2, _, h4, h5⟩ := sendMessagesLoop_scalar_frame clock msgs k c
  unfold expiryData
  rw [h2, h4, h5]

theorem sendMessageLocal_ok_expiry {now : Int} {clock : Nat → Int} {freshId : String}
    {ctx : Nat} {repOk : Bool} {c : Chat} {m : Message} {c' : Chat} {m' : Message}
    (htype : m.header.type ≠ .CHAT_STATUS)
    (h : (sendMessageLocal now clock freshId ctx repOk c m).1 = .ok (c', m')) :
    expiryData c' = expiryData c := by
  unfold sendMessageLocal at h
  by_cases hex : c.expired now = true
  · rw [hex] at h
    simp at h
  · rw [Bool.not_eq_true] at hex
    rw [hex] at h
    simp only [Bool.false_eq_true, if_false] at h
    rcases hh : handleMsg now freshId ctx c m with e | p <;> rw [hh] at h
    · simp at h
    · obtain ⟨c₂, m₂⟩ := p
      dsimp only at h
      by_cases hrep : repOk = true
      · rw [hrep] at h
        simp only [if_true, Except.ok.injEq, Prod.mk.injEq] at h
        rw [← h.1]
        exact (sendMessagesLoop_expiry clock [m₂] 0 c₂).trans (handleMsg_ok_expiry htype hh)
      · simp [hrep] at h

theorem handlePoll_expiry (now : Int) (ctx : Nat) (c : Chat) :
    expiryData (handlePoll now ctx c).1 = expiryData c := rfl

theorem handlePoll_types (now : Int) (ctx : Nat) (c : Chat) :
    ∀ m ∈ (handlePoll now ctx c).2, m.header.type = .USER_STATUS := by
  intro m hm
  unfold handlePoll at hm
  simp only [List.mem_filterMap] at hm
  obtain ⟨kv, _, hv⟩ := hm
  by_cases hp : (kv.2.status ≠ UserStatus.UNAVAILABLE ∧ now - kv.2.updateTimestamp > 20)
  · rw [if_pos hp] at hv
    simp only [Option.some.injEq] at hv
    rw [← hv]
    rfl
  · rw [if_neg hp] at hv
    exact absurd hv (by simp)

theorem pollSends_not_invalidChat {now : Int} {clocks : Nat → Nat → Int}
    {freshIds : Nat → String} {ctx : Nat} {repOk : Bool} :
    ∀ (polled : List Message) (i : Nat) (c : Chat),
      (∀ m ∈ polled, m.header.type = .USER_STATUS) → c.expired now = false →
      pollSends now clocks freshIds ctx repOk i c polled ≠ .error .invalidChat := by
  intro polled
  induction polled with
  | nil => intro i c _ _; simp [pollSends]
  | cons m rest ih =>
    intro i c htypes hex
    rw [pollSends]
    rcases hs : sendMessageLocal now (clocks i) (freshIds i) ctx repOk c m with ⟨r, pl⟩
    have hr1 : (sendMessageLocal now (clocks i) (freshIds i) ctx repOk c m).1 = r := by
      rw [hs]
    rcases r with e | p
    · cases e
      · exact absurd hr1 (sendMessageLocal_not_invalidChat hex)
      · simp
      · simp
    · obtain ⟨c', m'⟩ := p
      dsimp only
      have hty : m.header.type = .USER_STATUS := htypes m (List.mem_cons_self m rest)
      have hexp : expiryData c' = expiryData c :=
        sendMessageLocal_ok_expiry (by rw [hty]; intro hcon; cases hcon) hr1
      exact ih (i + 1) c' (fun m' hm' => htypes m' (List.mem_cons_of_mem m hm'))
        ((expired_congr hexp now).trans hex)

/-- C8 (amended): `Chat.expired` tests `startTimestamp` (not `endTimestamp`):
a chat is expired exactly when `startTimestamp` and `maxDuration` are
nonzero and `now()` exceeds
`startTimestamp + maxDuration + EXPIRATION_GRACE`; and a chat that is not
expired in this sense is never rejected as `InvalidChat` by the local
`sendMessage` or `getMessages` paths. -/
theorem claim_C8_expiry (now : Int) (clock : Nat → Int) (clocks : Nat → Nat → Int)
    (freshId : String) (freshIds : Nat → String) (ctx : Nat) (repOk : Bool)
    (c : Chat) (m : Message) (asOf : Option Int) (h : c.expired now = false) :
    Chat.expired c now = specC8AmendedExpired c now ∧
    (sendMessageLocal now clock freshId ctx repOk c m).1 ≠ .error .invalidChat ∧
    getMessagesLocal now clocks freshIds ctx repOk c asOf ≠ .error .invalidChat := by
  refine ⟨rfl, sendMessageLocal_not_invalidChat h, ?_⟩
  unfold getMessagesLocal
  rw [h]
  simp only [Bool.false_eq_true, if_false]
  have hexp : (handlePoll now ctx c).1.expired now = false :=
    (expired_congr (handlePoll_expiry now ctx c) now).trans h
  rcases hps : pollSends now clocks freshIds ctx repOk 0 (handlePoll now ctx c).1
      (handlePoll now ctx c).2 with e | c'
  · intro hcon
    simp only [Except.error.injEq] at hcon
    exact pollSends_not_invalidChat _ 0 _ (handlePoll_types now ctx c) hexp
      (hcon ▸ hps)
  · rcases hg : getMessages c' asOf (some ctx) with msgs | e <;> simp [hg]

/-- Witness for C8 at a fresh (never started) chat. -/
theorem claim_C8_expiry_witness :
    Chat.expired (newChat "w8") 4 = specC8AmendedExpired (newChat "w8") 4 ∧
    (sendMessageLocal 4 (fun _ => 4) "f" 1 true (newChat "w8")
        { header := { id := some "u", type := .USER_STATUS, chatToken := "w8", userId := 1,
                      timestamp := none, skew := 0, route := none }
          userStatusMessage := some { userId := 1, status := .AVAILABLE } }).1 ≠
      .error .invalidChat ∧
    getMessagesLocal 4 (fun _ _ => 4) (fun _ => "f") 1 true (newChat "w8") (some 0) ≠
      .error .invalidChat :=
  claim_C8_expiry 4 (fun _ => 4) (fun _ _ => 4) "f" (fun _ => "f") 1 true (newChat "w8")
    { header := { id := some "u", type := .USER_STATUS, chatToken := "w8", userId := 1,
                  timestamp := none, skew := 0, route := none }
      userStatusMessage := some { userId := 1, status := .AVAILABLE } }
    (some 0) rfl

/-- C9 (counterexample): a MARKER_CREATE message sent to a STARTED,
not-ended chat is rejected as `InvalidMessage` (the claim says marker
messages are always accepted): the gate exempts only USER_STATUS and
CHAT_STATUS, and its `chat.active` check raises `AttributeError` on the
current `Chat` class. -/
theorem claim_C9_counterexample :
    c9Chat.state.status = .STARTED ∧ c9Chat.state.endTimestamp = 0 ∧
    sendMessageLocal 3 (fun _ => 3) "f" 4 true c9Chat c9Marker =
      (.error .invalidMessage, []) :=
  ⟨rfl, rfl, rfl⟩

/-- C9 (amended): the default gate accepts USER_STATUS and CHAT_STATUS
messages whatever the chat status, and rejects every message of any other
type — whatever the chat status — as `InvalidMessage`, appending nothing
and submitting nothing for replication (the broken `chat.active` check
raises before any state is touched). -/
theorem claim_C9_gate (now : Int) (clock : Nat → Int) (freshId : String) (ctx : Nat)
    (repOk : Bool) (c : Chat) (m : Message)
    (hst : m.header.type = .USER_STATUS ∨ m.header.type = .CHAT_STATUS) :
    (defaultHandle now freshId m).isOk = true ∧
    (∀ m' : Message, m'.header.type ≠ .USER_STATUS → m'.header.type ≠ .CHAT_STATUS →
      c.expired now = false →
      sendMessageLocal now clock freshId ctx repOk c m' = (.error .invalidMessage, [])) := by
  constructor
  · rw [defaultHandle_status hst]
    rfl
  · intro m' h1 h2 hex
    unfold sendMessageLocal
    rw [hex]
    simp only [Bool.false_eq_true, if_false]
    have : handleMsg now freshId ctx c m' = .error () := by
      unfold handleMsg
      rw [defaultHandle_nonstatus h1 h2]
    rw [this]

/-- C8 (counterexample): the claim's expiry condition (based on
`endTimestamp`) holds for a chat with `endTimestamp = 5`, `maxDuration = 10`
at `now = 1000`, yet `Chat.expired` (which reads `startTimestamp`, zero
here) is false — and `sendMessage` happily accepts a message for this
spec-expired chat. -/
theorem claim_C8_counterexample :
    specC8Expired c8Chat 1000 = true ∧ Chat.expired c8Chat 1000 = false ∧
    (sendMessageLocal 1000 (fun _ => 1000) "f" 1 true c8Chat
        { header := { id := some "u1", type := .USER_STATUS, chatToken := "t", userId := 1,
                      timestamp := none, skew := 0, route := none }
          userStatusMessage := some { userId := 1, status := .AVAILABLE } }).1.isOk = true :=
  ⟨rfl, rfl, rfl⟩

/-- Witness for C9: a USER_STATUS message always passes the gate, and the
marker message to the STARTED chat is rejected with nothing submitted. -/
theorem claim_C9_gate_witness :
    (defaultHandle 3 "f" c4Orig).isOk = true ∧
    sendMessageLocal 3 (fun _ => 3) "f" 4 true c9Chat c9Marker =
      (.error .invalidMessage, []) := by
  have h := claim_C9_gate 3 (fun _ => 3) "f" 4 true c9Chat c4Orig (Or.inl rfl)
  exact ⟨h.1, h.2 c9Marker (by decide) (by decide) rfl⟩

/-! ## Replication-result lemmas -/

theorem setValue_frame (r : RepResult) :
    r.setValue.W = r.W ∧ r.setValue.N = r.N ∧ r.setValue.maxErrors = r.maxErrors ∧
    r.setValue.errors = r.errors ∧ r.setValue.values = r.values + 1 := by
  unfold RepResult.setValue
  dsimp only
  split <;> exact ⟨rfl, rfl, rfl, rfl, rfl⟩

theorem setExc_frame (r : RepResult) :
    r.setExc.W = r.W ∧ r.setExc.N = r.N ∧ r.setExc.maxErrors = r.maxErrors ∧
    r.setExc.values = r.values ∧ r.setExc.errors = r.errors + 1 := by
  unfold RepResult.setExc
  dsimp only
  split <;> exact ⟨rfl, rfl, rfl, rfl, rfl⟩

theorem repInv_setValue {w : Int} {r : RepResult} (h : RepInv w r) : RepInv w r.setValue := by
  obtain ⟨hW, hME, hnone, htrue, hfalse⟩ := h
  unfold RepResult.setValue
  dsimp only
  split
  · rename_i hc
    refine ⟨hW, hME, fun ho => by simp at ho, fun _ => ?_, fun ho => by simp at ho⟩
    have h1 : decide (((r.values + 1 : Nat) : Int) ≥ r.W) = true := hc.1
    simp only [hW, decide_eq_true_eq] at h1
    exact h1
  · rename_i hc
    refine ⟨hW, hME, fun ho => ?_, fun ho => ?_, fun ho => hfalse ho⟩
    · have hA : ¬ (decide (((r.values + 1 : Nat) : Int) ≥ r.W) = true) :=
        fun hA => hc ⟨hA, ho⟩
      simp only [hW, decide_eq_true_eq] at hA
      show ((r.values + 1 : Nat) : Int) < w
      omega
    · have := htrue ho
      show ((r.values + 1 : Nat) : Int) ≥ w
      omega

theorem repInv_setExc {w : Int} {r : RepResult} (h : RepInv w r) : RepInv w r.setExc := by
  obtain ⟨hW, hME, hnone, htrue, hfalse⟩ := h
  unfold RepResult.setExc
  dsimp only
  split
  · rename_i hc
    refine ⟨hW, hME, fun ho => by simp at ho, fun ho => by simp at ho, fun _ => ?_⟩
    have h1 : r.errors + 1 > r.maxErrors := hc.1
    show r.errors + 1 > 2
    omega
  · rename_i hc
    refine ⟨hW, hME, fun ho => hnone ho, fun ho => htrue ho, fun ho => ?_⟩
    have := hfalse ho
    show r.errors + 1 > 2
    omega

theorem repInv_applySend {w : Int} {r : RepResult} (h : RepInv w r) (b : Bool) :
    RepInv w (applySend r b) := by
  unfold applySend
  cases b
  · simpa using repInv_setExc h
  · simpa using repInv_setValue h

theorem repInv_coordinateLoop {w : Int} (selfKey : String) :
    ∀ (nodes : List RNode) (r : RepResult), RepInv w r →
      RepInv w (coordinateLoop selfKey nodes r) := by
  intro nodes
  induction nodes with
  | nil => intro r h; exact h
  | cons n rest ih =>
    intro r h
    rw [coordinateLoop]
    by_cases hn : r.nSatisfied = true
    · rw [if_pos hn]; exact h
    · rw [if_neg hn]
      by_cases hk : n.key ≠ selfKey
      · rw [if_pos hk]; exact ih _ (repInv_applySend h n.sendOk)
      · rw [if_neg hk]; exact ih _ h

theorem failNow_frame (r : RepResult) :
    r.failNow.values = r.values ∧ r.failNow.errors = r.errors ∧ r.failNow.W = r.W := by
  unfold RepResult.failNow
  split <;> exact ⟨rfl, rfl, rfl⟩

theorem repInv_conclusions {w : Int} {r : RepResult} (h : RepInv w r) :
    (r.outcome = some true → (r.values : Int) ≥ w) ∧
    (r.outcome = some false → r.errors > 2 ∨ (r.values : Int) < w) ∧
    ((r.values : Int) ≥ w ∧ r.errors ≤ 2 → r.outcome = some true) := by
  obtain ⟨hW, hME, hnone, htrue, hfalse⟩ := h
  refine ⟨htrue, fun hf => Or.inl (hfalse hf), fun hve => ?_⟩
  rcases ho : r.outcome with _ | b
  · exact absurd hve.1 (by have := hnone ho; omega)
  · cases b
    · exact absurd (hfalse ho) (by omega)
    · rfl

theorem coordinate_conclusions {w : Int} {selfKey : String} {nodes : List RNode}
    {r : RepResult} (h : RepInv w r) :
    ((coordinate selfKey nodes r).outcome = some true →
      ((coordinate selfKey nodes r).values : Int) ≥ w) ∧
    ((coordinate selfKey nodes r).outcome = some false →
      (coordinate selfKey nodes r).errors > 2 ∨
        ((coordinate selfKey nodes r).values : Int) < w) ∧
    (((coordinate selfKey nodes r).values : Int) ≥ w ∧
        (coordinate selfKey nodes r).errors ≤ 2 →
      (coordinate selfKey nodes r).outcome = some true) := by
  have h' := repInv_coordinateLoop selfKey nodes r h
  unfold coordinate
  by_cases hn : (coordinateLoop selfKey nodes r).nSatisfied = true
  · rw [if_pos hn]
    exact repInv_conclusions h'
  · rw [if_neg hn]
    by_cases hw' : (coordinateLoop selfKey nodes r).wSatisfied = true
    · rw [if_pos hw']
      exact repInv_conclusions h'
    · rw [if_neg hw']
      obtain ⟨hW, hME, hnone, htrue, hfalse⟩ := h'
      obtain ⟨hv, he, hWf⟩ := failNow_frame (coordinateLoop selfKey nodes r)
      have hlt : ((coordinateLoop selfKey nodes r).values : Int) < w := by
        simp only [RepResult.wSatisfied, hW, decide_eq_true_eq] at hw'
        omega
      refine ⟨fun ho => ?_, fun _ => Or.inr (by rw [hv]; exact hlt), fun hve => ?_⟩
      · unfold RepResult.failNow at ho
        rw [hv]
        split at ho
        · exact absurd ho (by simp)
        · exact htrue ho
      · rw [hv] at hve
        exact absurd hve.1 (by omega)

theorem replicateStart_some {selfN selfW n w : Int} (hn : n ≠ -1) (hw : w ≠ -1) :
    (replicateStart selfN selfW (some n) (some w)).1 =
      RepResult.setValue
        { N := n, W := w, maxErrors := 2, values := 0, errors := 0, outcome := none } := by
  unfold replicateStart
  dsimp only
  rw [if_neg hn, if_neg hw]

/-- C2 (counterexample): with N = W = 2 and a single remote peer whose send
fails, the job's result completes with an error after just **one** failed
remote send (the coordinator fails the quorum at the end of the walk),
refuting "completes with an error exactly when more than maxErrors = 2
remote sends have failed". -/
theorem claim_C2_counterexample :
    (replicateStart 2 2 (some (-1)) (some (-1))).1.values = 1 ∧
    c2Final.outcome = some false ∧ c2Final.errors = 1 :=
  ⟨rfl, rfl, rfl⟩

/-- C2 (amended): the local copy is counted as one success before the job
is enqueued; the result completes successfully only once total successes
(local included) reach W, and does complete successfully whenever they
reach W with at most `maxErrors = 2` failed sends; it completes with an
error only when more than 2 remote sends have failed or the preference
list was exhausted with fewer than W total successes (quorum failure). -/
theorem claim_C2_quorum (selfN selfW n w : Int) (selfKey : String) (nodes : List RNode)
    (hn : n ≠ -1) (hw : w ≠ -1) (hw1 : 1 ≤ w) :
    (replicateStart selfN selfW (some n) (some w)).1.values = 1 ∧
    (w ≤ 1 → (replicateStart selfN selfW (some n) (some w)).1.outcome = some true) ∧
    ((coordinate selfKey nodes (replicateStart selfN selfW (some n) (some w)).1).outcome =
        some true →
      ((coordinate selfKey nodes (replicateStart selfN selfW (some n) (some w)).1).values :
        Int) ≥ w) ∧
    ((coordinate selfKey nodes (replicateStart selfN selfW (some n) (some w)).1).outcome =
        some false →
      (coordinate selfKey nodes (replicateStart selfN selfW (some n) (some w)).1).errors > 2 ∨
      ((coordinate selfKey nodes (replicateStart selfN selfW (some n) (some w)).1).values :
        Int) < w) ∧
    (((coordinate selfKey nodes (replicateStart selfN selfW (some n) (some w)).1).values :
        Int) ≥ w ∧
      (coordinate selfKey nodes (replicateStart selfN selfW (some n) (some w)).1).errors ≤ 2 →
      (coordinate selfKey nodes (replicateStart selfN selfW (some n) (some w)).1).outcome =
        some true) := by
  have hbase : RepInv w
      ({ N := n, W := w, maxErrors := 2, values := 0, errors := 0, outcome := none } :
        RepResult) :=
    ⟨rfl, rfl, fun _ => by simp; omega, fun ho => by simp at ho, fun ho => by simp at ho⟩
  have hr0 : RepInv w (replicateStart selfN selfW (some n) (some w)).1 := by
    rw [replicateStart_some hn hw]
    exact repInv_setValue hbase
  have hconc := @coordinate_conclusions w selfKey nodes _ hr0
  refine ⟨?_, ?_, hconc.1, hconc.2.1, hconc.2.2⟩
  · rw [replicateStart_some hn hw]
    exact (setValue_frame _).2.2.2.2
  · intro hle
    rw [replicateStart_some hn hw]
    unfold RepResult.setValue
    dsimp only
    rw [if_pos ⟨by simp [RepResult.wSatisfied]; omega, rfl⟩]

/-- Witness for C2: the upfront local success, immediate completion when
W = 1, quorum success with one healthy peer at W = 2, and the quorum-failure
facts at the failing-peer run. -/
theorem claim_C2_quorum_witness :
    (replicateStart 2 1 (some 2) (some 2)).1.values = 1 ∧
    (replicateStart 2 1 (some 2) (some 1)).1.outcome = some true ∧
    (coordinate "self" [{ key := "peer", sendOk := true }]
        (replicateStart 2 1 (some 2) (some 2)).1).outcome = some true ∧
    ((coordinate "self" [{ key := "peer", sendOk := false }]
        (replicateStart 2 1 (some 2) (some 2)).1).errors > 2 ∨
      ((coordinate "self" [{ key := "peer", sendOk := false }]
        (replicateStart 2 1 (some 2) (some 2)).1).values : Int) < 2) := by
  refine ⟨(claim_C2_quorum 2 1 2 2 "self" [] (by decide) (by decide) (by decide)).1,
    (claim_C2_quorum 2 1 2 1 "self" [] (by decide) (by decide) (by decide)).2.1 (by decide),
    (claim_C2_quorum 2 1 2 2 "self" [{ key := "peer", sendOk := true }]
        (by decide) (by decide) (by decide)).2.2.2.2 ⟨by decide, by decide⟩,
    (claim_C2_quorum 2 1 2 2 "self" [{ key := "peer", sendOk := false }]
        (by decide) (by decide) (by decide)).2.2.2.1 (by decide)⟩

/-! ## Duplicate-send lemmas (C4) -/

theorem handleChatStatus_ne_error {c : Chat} {m : Message}
    (hp : m.chatStatusMessage.isSome = true) (e : Unit) :
    handleChatStatus c m ≠ .error e := by
  unfold handleChatStatus
  obtain ⟨pl, hpl⟩ := Option.isSome_iff_exists.mp hp
  rw [hpl]
  simp

theorem handleUserStatus_ne_error {ctx : Nat} {c : Chat} {m : Message}
    (hp : m.userStatusMessage.isSome = true) (e : Unit) :
    handleUserStatus ctx c m ≠ .error e := by
  unfold handleUserStatus
  obtain ⟨pl, hpl⟩ := Option.isSome_iff_exists.mp hp
  rw [hpl]
  dsimp only
  rcases hg : dictGet c.state.users pl.userId with _ | st <;> simp

theorem handleMsg_status_result {now : Int} {freshId : String} {ctx : Nat}
    {c : Chat} {m : Message}
    (htype : m.header.type = .USER_STATUS ∨ m.header.type = .CHAT_STATUS)
    (hpayU : m.header.type = .USER_STATUS → m.userStatusMessage.isSome = true)
    (hpayC : m.header.type = .CHAT_STATUS → m.chatStatusMessage.isSome = true) :
    ∃ c₂, handleMsg now freshId ctx c m = .ok (c₂, normalizeMessage now freshId m) ∧
      c₂.state.messages = c.state.messages ∧
      c₂.message_timestamps = c.message_timestamps ∧
      c₂.message_history = c.message_history := by
  have hd := @defaultHandle_status now freshId m htype
  unfold handleMsg
  rw [hd]
  dsimp only
  have htm := (normalizeMessage_fields now freshId m).1
  rcases htype with hU | hC
  · rw [if_neg (by rw [htm, hU]; intro hcon; cases hcon), if_pos (by rw [htm, hU])]
    have hp : (normalizeMessage now freshId m).userStatusMessage.isSome = true := by
      rw [(normalizeMessage_fields now freshId m).2.2.2]
      exact hpayU hU
    rcases hres : handleUserStatus ctx c (normalizeMessage now freshId m) with e | c₂
    · exact absurd hres (handleUserStatus_ne_error hp e)
    · obtain ⟨_, _, _, _, _, h6, h7, h8⟩ := handleUserStatus_frame hres
      exact ⟨c₂, rfl, h6, h7, h8⟩
  · rw [if_pos (by rw [htm, hC])]
    have hp : (normalizeMessage now freshId m).chatStatusMessage.isSome = true := by
      rw [(normalizeMessage_fields now freshId m).2.2.1]
      exact hpayC hC
    rcases hres : handleChatStatus c (normalizeMessage now freshId m) with e | c₂
    · exact absurd hres (handleChatStatus_ne_error hp e)
    · obtain ⟨h1, h2, h3, _, _⟩ := handleChatStatus_frame hres
      exact ⟨c₂, rfl, h1, h2, h3⟩

theorem sendMessages_single_dup {clock : Nat → Int} {c : Chat} {m : Message}
    (h : m.header.id ∈ c.message_history) : sendMessages clock c [m] = c := by
  unfold sendMessages sendMessagesLoop
  rw [if_pos h]
  rw [sendMessagesLoop]

/-- C4 (counterexample): re-sending the already-stored message with id "a"
leaves the message list, timestamps and id set unchanged and raises no
error, but the handler still hands the duplicate to the replicator — the
claim's "no replication of m is performed" is false on the code. -/
theorem claim_C4_counterexample :
    (c4Result.1.toOption.map
      (fun p => (p.1.state.messages, p.1.message_timestamps, p.1.message_history))) =
      some (c4Chat.state.messages, c4Chat.message_timestamps, c4Chat.message_history) ∧
    c4Result.2.map (fun x => x.header.id) = [some "a"] :=
  ⟨rfl, rfl⟩

/-- C4 (amended): sending a message whose `header.id` is already recorded —
one that passes the (broken) status gate — appends nothing (messages,
timestamps, id set unchanged) and raises no error, but the message is still
submitted to the replicator (its snapshot carries the duplicate; peers
ignore it by the same id check). -/
theorem claim_C4_duplicate_send (now : Int) (clock : Nat → Int) (freshId : String)
    (ctx : Nat) (c : Chat) (m : Message) (i : String)
    (hid : m.header.id = some i) (hmem : some i ∈ c.message_history)
    (htype : m.header.type = .USER_STATUS ∨ m.header.type = .CHAT_STATUS)
    (hpayU : m.header.type = .USER_STATUS → m.userStatusMessage.isSome = true)
    (hpayC : m.header.type = .CHAT_STATUS → m.chatStatusMessage.isSome = true)
    (hex : c.expired now = false) :
    ((sendMessageLocal now clock freshId ctx true c m).1.toOption.map
      (fun p => (p.1.state.messages, p.1.message_timestamps, p.1.message_history))) =
      some (c.state.messages, c.message_timestamps, c.message_history) ∧
    (sendMessageLocal now clock freshId ctx true c m).2.map (fun x => x.header.id) =
      [some i] := by
  obtain ⟨c₂, hmsg, hf1, hf2, hf3⟩ :=
    @handleMsg_status_result now freshId ctx c m htype hpayU hpayC
  have hid0 := normalizeMessage_id_some now freshId m i hid
  have hdup : sendMessages clock c₂ [normalizeMessage now freshId m] = c₂ :=
    sendMessages_single_dup (by rw [hid0, hf3]; exact hmem)
  refine ⟨?_, ?_⟩ <;>
    simp [sendMessageLocal, hex, hmsg, hdup, hid0, hf1, hf2, hf3, Except.toOption]

/-- Witness for C4 at the concrete duplicate send. -/
theorem claim_C4_duplicate_send_witness :
    ((sendMessageLocal 10 (fun _ => 11) "f" 7 true c4Chat c4Orig).1.toOption.map
      (fun p => (p.1.state.messages, p.1.message_timestamps, p.1.message_history))) =
      some (c4Chat.state.messages, c4Chat.message_timestamps, c4Chat.message_history) ∧
    (sendMessageLocal 10 (fun _ => 11) "f" 7 true c4Chat c4Orig).2.map
        (fun x => x.header.id) = [some "a"] :=
  claim_C4_duplicate_send 10 (fun _ => 11) "f" 7 c4Chat c4Orig "a" rfl (by decide)
    (Or.inl rfl) (fun _ => rfl) (fun hcon => by cases hcon) rfl

/-! ## get_messages lemmas (C3) -/

theorem drop_bisect_eq_filter (x : Option Int) :
    ∀ (msgs : List Message),
      TsSorted (msgs.map (fun m => m.header.timestamp)) →
      msgs.drop (bisectRight (msgs.map (fun m => m.header.timestamp)) x) =
        msgs.filter (fun m => pyLt x m.header.timestamp) := by
  intro msgs
  induction msgs with
  | nil => intro _; rfl
  | cons m rest ih =>
    intro h
    rw [List.map_cons, TsSorted, List.pairwise_cons] at h
    by_cases hx : pyLt x m.header.timestamp = true
    · rw [show bisectRight ((m :: rest).map (fun m => m.header.timestamp)) x = 0 from by
        simp [bisectRight, hx]]
      rw [List.drop_zero, List.filter_cons_of_pos (by simp [hx])]
      rw [List.filter_eq_self.mpr]
      intro a ha
      exact pyLt_lt_of_lt_of_not_lt hx (h.1 _ (List.mem_map_of_mem _ ha))
    · rw [show bisectRight ((m :: rest).map (fun m => m.header.timestamp)) x =
          bisectRight (rest.map (fun m => m.header.timestamp)) x + 1 from by
        simp [bisectRight, hx]]
      rw [List.drop_succ_cons, List.filter_cons_of_neg (by simp [hx])]
      exact ih h.2

theorem routeType_cases {m : Message} {x : MessageRouteType} (h : routeType m = some x) :
    ∃ r, m.header.route = some r ∧ r.type = x := by
  rcases hroute : m.header.route with _ | r
  · simp [routeType, hroute] at h
  · refine ⟨r, rfl, ?_⟩
    simpa [routeType, hroute] using h

theorem filterMessages_clean {u : Nat} :
    ∀ l : List Message,
      (∀ m ∈ l, routeType m = some .BROADCAST_ROUTE ∨ routeType m = some .NO_ROUTE) →
      filterMessages l (some u) =
        .ok (l.filter (fun m => decide (routeType m ≠ some .NO_ROUTE))) := by
  intro l
  induction l with
  | nil => intro _; rfl
  | cons m rest ih =>
    intro h
    have hrest := ih (fun a ha => h a (List.mem_cons_of_mem m ha))
    rcases h m (List.mem_cons_self m rest) with hb | hn
    · obtain ⟨r, hr, hrt⟩ := routeType_cases hb
      rw [filterMessages, hr]
      dsimp only
      rw [if_neg (by rw [hrt]; intro hc; cases hc),
        if_neg (by rw [hrt]; intro hc; cases hc), hrest]
      rw [List.filter_cons_of_pos (by simp [routeType, hr, hrt])]
      rfl
    · obtain ⟨r, hr, hrt⟩ := routeType_cases hn
      rw [filterMessages, hr]
      dsimp only
      rw [if_pos hrt, hrest]
      rw [List.filter_cons_of_neg (by simp [routeType, hr, hrt])]

theorem filterMessages_error_iff {u : Nat} (hu : u ≠ 0) :
    ∀ l : List Message,
      (filterMessages l (some u) = .error .attributeError ↔
        ∃ m ∈ l, routeType m = none ∨ routeType m = some .TARGETED_ROUTE) := by
  intro l
  induction l with
  | nil => simp [filterMessages]
  | cons m rest ih =>
    rw [filterMessages]
    rcases hroute : m.header.route with _ | r
    · dsimp only
      constructor
      · intro _
        exact ⟨m, List.mem_cons_self _ _, Or.inl (by simp [routeType, hroute])⟩
      · intro _; rfl
    · dsimp only
      by_cases hNR : r.type = .NO_ROUTE
      · rw [if_pos hNR, ih]
        constructor
        · rintro ⟨a, ha, hc⟩
          exact ⟨a, List.mem_cons_of_mem _ ha, hc⟩
        · rintro ⟨a, ha, hc⟩
          rcases List.mem_cons.mp ha with rfl | ha'
          · exfalso
            rcases hc with hc | hc
            · simp [routeType, hroute] at hc
            · obtain ⟨r', hr', hrt'⟩ := routeType_cases hc
              rw [hroute] at hr'
              simp only [Option.some.injEq] at hr'
              rw [← hr', hNR] at hrt'
              cases hrt'
          · exact ⟨a, ha', hc⟩
      · by_cases hT : r.type = .TARGETED_ROUTE
        · rw [if_neg hNR, if_pos hT, if_pos hu]
          constructor
          · intro _
            exact ⟨m, List.mem_cons_self _ _, Or.inr (by simp [routeType, hroute, hT])⟩
          · intro _; rfl
        · rw [if_neg hNR, if_neg hT]
          constructor
          · intro he
            rcases hfr : filterMessages rest (some u) with e | v <;> rw [hfr] at he
            · cases e
              obtain ⟨a, ha, hc⟩ := (ih).mp hfr
              exact ⟨a, List.mem_cons_of_mem _ ha, hc⟩
            · exact absurd he (by simp [Except.map])
          · rintro ⟨a, ha, hc⟩
            rcases List.mem_cons.mp ha with rfl | ha'
            · exfalso
              rcases hc with hc | hc
              · simp [routeType, hroute] at hc
              · obtain ⟨r', hr', hrt'⟩ := routeType_cases hc
                rw [hroute] at hr'
                simp only [Option.some.injEq] at hr'
                rw [← hr'] at hrt'
                exact hT hrt'
            · rw [(ih).mpr ⟨a, ha', hc⟩]
              rfl

/-- C3 (counterexample): with `userId = nil`, `get_messages` applies no
filter at all — the stored NO_ROUTE message is returned, though the claim
says the NO_ROUTE filter still applies. -/
theorem claim_C3_counterexample :
    getMessages c3Chat (some 0) none = .ok [c3Msg] ∧
    routeType c3Msg = some .NO_ROUTE :=
  ⟨rfl, rfl⟩

/-- C3 (amended): `get_messages(asOf, userId, block=false)` returns exactly
the stored messages with `header.timestamp > asOf`; with `userId` nil they
are returned unfiltered (NO_ROUTE included); with a truthy (nonzero)
`userId`, NO_ROUTE messages are dropped and the call raises
`AttributeError` (the code spells the route field `recpiients`) as soon as
a TARGETED_ROUTE message (or a message without a route) is in range. -/
theorem claim_C3_get_messages (c : Chat) (t : Int) (u : Nat) (hInv : ChatInv c)
    (hu : u ≠ 0)
    (hClean : ∀ m ∈ c.state.messages,
      routeType m = some .BROADCAST_ROUTE ∨ routeType m = some .NO_ROUTE) :
    getMessages c (some t) none =
      .ok (c.state.messages.filter (fun m => pyLt (some t) m.header.timestamp)) ∧
    getMessages c (some t) (some u) =
      .ok ((c.state.messages.filter (fun m => pyLt (some t) m.header.timestamp)).filter
        (fun m => decide (routeType m ≠ some .NO_ROUTE))) ∧
    ∀ c' : Chat, ChatInv c' →
      (∃ m ∈ c'.state.messages.filter (fun m => pyLt (some t) m.header.timestamp),
        routeType m = none ∨ routeType m = some .TARGETED_ROUTE) →
      getMessages c' (some t) (some u) = .error .attributeError := by
  have hsorted : TsSorted (c.state.messages.map (fun m => m.header.timestamp)) := by
    rw [← hInv.ts_eq]; exact hInv.sorted
  have hdrop := drop_bisect_eq_filter (some t) c.state.messages hsorted
  refine ⟨?_, ?_, ?_⟩
  · unfold getMessages
    dsimp only
    rw [hInv.ts_eq, hdrop]
  · unfold getMessages
    dsimp only
    rw [hInv.ts_eq, hdrop]
    exact filterMessages_clean _
      (fun m hm => hClean m (List.mem_of_mem_filter hm))
  · intro c' hInv' hex
    have hsorted' : TsSorted (c'.state.messages.map (fun m => m.header.timestamp)) := by
      rw [← hInv'.ts_eq]; exact hInv'.sorted
    unfold getMessages
    dsimp only
    rw [hInv'.ts_eq, drop_bisect_eq_filter (some t) c'.state.messages hsorted']
    exact (filterMessages_error_iff hu _).mpr hex

/-- Witness for C3 at the NO_ROUTE chat and the TARGETED chat. -/
theorem claim_C3_get_messages_witness :
    getMessages c3Chat (some 0) none =
      .ok (c3Chat.state.messages.filter (fun m => pyLt (some 0) m.header.timestamp)) ∧
    getMessages c3Chat (some 0) (some 5) =
      .ok ((c3Chat.state.messages.filter (fun m => pyLt (some 0) m.header.timestamp)).filter
        (fun m => decide (routeType m ≠ some .NO_ROUTE))) ∧
    getMessages c3TChat (some 0) (some 5) = .error .attributeError := by
  have h := claim_C3_get_messages c3Chat 0 5
    (chatInv_storeReplicatedMessages [c3Msg] (newChat "t") (chatInv_newChat "t"))
    (by decide) (by decide)
  exact ⟨h.1, h.2.1, h.2.2 c3TChat
    (chatInv_storeReplicatedMessages [c3TMsg] (newChat "t") (chatInv_newChat "t"))
    ⟨c3TMsg, by decide, by decide⟩⟩

/-! ## Python-dict lemmas (C10) -/

theorem dictGet_mem {β : Type} :
    ∀ {d : List (Nat × β)} {k : Nat} {v : β}, dictGet d k = some v → (k, v) ∈ d := by
  intro d
  induction d with
  | nil => intro k v h; simp [dictGet] at h
  | cons hd rest ih =>
    intro k v h
    obtain ⟨k', v'⟩ := hd
    rw [dictGet] at h
    by_cases he : k' = k
    · rw [if_pos he] at h
      simp only [Option.some.injEq] at h
      subst he
      subst h
      exact List.mem_cons_self _ _
    · rw [if_neg he] at h
      exact List.mem_cons_of_mem _ (ih h)

theorem mem_dictGet {β : Type} :
    ∀ {d : List (Nat × β)}, (d.map Prod.fst).Nodup →
      ∀ {kv : Nat × β}, kv ∈ d → dictGet d kv.1 = some kv.2 := by
  intro d
  induction d with
  | nil => intro _ kv h; simp at h
  | cons hd rest ih =>
    intro hnd kv h
    obtain ⟨k', v'⟩ := hd
    rw [List.map_cons, List.nodup_cons] at hnd
    rcases List.mem_cons.mp h with rfl | hmem
    · simp [dictGet]
    · rw [dictGet]
      by_cases he : k' = kv.1
      · exfalso
        exact hnd.1 (by rw [he]; exact List.mem_map.mpr ⟨kv, hmem, rfl⟩)
      · rw [if_neg he]
        exact ih hnd.2 hmem

theorem mem_dictSet {β : Type} :
    ∀ {d : List (Nat × β)}, (d.map Prod.fst).Nodup →
      ∀ {kv : Nat × β} {k : Nat} {v : β},
        (kv ∈ dictSet d k v ↔ kv = (k, v) ∨ (kv ∈ d ∧ kv.1 ≠ k)) := by
  intro d
  induction d with
  | nil => intro _ kv k v; simp [dictSet]
  | cons hd rest ih =>
    intro hnd kv k v
    obtain ⟨k', v'⟩ := hd
    rw [List.map_cons, List.nodup_cons] at hnd
    rw [dictSet]
    by_cases he : k' = k
    · rw [if_pos he]
      subst he
      constructor
      · intro hm
        rcases List.mem_cons.mp hm with rfl | hmem
        · exact Or.inl rfl
        · refine Or.inr ⟨List.mem_cons_of_mem _ hmem, fun hq => ?_⟩
          exact hnd.1 (by rw [← hq]; exact List.mem_map.mpr ⟨kv, hmem, rfl⟩)
      · intro hm
        rcases hm with rfl | ⟨hmem, hne⟩
        · exact List.mem_cons_self _ _
        · rcases List.mem_cons.mp hmem with rfl | hmem'
          · exact absurd rfl hne
          · exact List.mem_cons_of_mem _ hmem'
    · rw [if_neg he]
      constructor
      · intro hm
        rcases List.mem_cons.mp hm with rfl | hmem
        · exact Or.inr ⟨List.mem_cons_self _ _, he⟩
        · rcases (ih hnd.2).mp hmem with h1 | ⟨h2, h3⟩
          · exact Or.inl h1
          · exact Or.inr ⟨List.mem_cons_of_mem _ h2, h3⟩
      · intro hm
        rcases hm with rfl | ⟨hmem, hne⟩
        · exact List.mem_cons_of_mem _ ((ih hnd.2).mpr (Or.inl rfl))
        · rcases List.mem_cons.mp hmem with rfl | hmem'
          · exact List.mem_cons_self _ _
          · exact List.mem_cons_of_mem _ ((ih hnd.2).mpr (Or.inr ⟨hmem', hne⟩))

theorem buildUserStatusMessage_inj {c : Chat} {a b : Nat}
    (h : buildUserStatusMessage c a .UNAVAILABLE = buildUserStatusMessage c b .UNAVAILABLE) :
    a = b := by
  have h2 := congrArg (fun m => m.userStatusMessage) h
  simpa [buildUserStatusMessage] using h2

/-- C10: on a poll by a user `u` that already has a `UserState` (in a
well-keyed users map), `handle_poll` first refreshes `u`'s
`updateTimestamp` to `now`, so no USER_STATUS UNAVAILABLE message is ever
emitted for `u`; and an UNAVAILABLE message is emitted for another user
`k` exactly when `k`'s status is not already UNAVAILABLE and `k`'s
`updateTimestamp` lies more than 20 seconds in the past. -/
theorem claim_C10_handle_poll (now : Int) (u : Nat) (c : Chat) (st : UserState)
    (hnd : (c.state.users.map Prod.fst).Nodup)
    (hwell : ∀ kv ∈ c.state.users, kv.2.userId = kv.1)
    (hu : dictGet c.state.users u = some st) :
    (∀ msg ∈ (handlePoll now u c).2,
      msg.userStatusMessage.map (fun p => p.userId) ≠ some u) ∧
    (∀ k s, dictGet c.state.users k = some s → k ≠ u →
      (buildUserStatusMessage c k .UNAVAILABLE ∈ (handlePoll now u c).2 ↔
        (s.status ≠ .UNAVAILABLE ∧ now - s.updateTimestamp > 20))) := by
  have hstu : st.userId = u := hwell (u, st) (dictGet_mem hu)
  have h2 : (handlePoll now u c).2 =
      (dictSet c.state.users u { st with updateTimestamp := now }).filterMap
        (fun kv =>
          if kv.2.status ≠ UserStatus.UNAVAILABLE ∧ now - kv.2.updateTimestamp > 20 then
            some (buildUserStatusMessage c kv.2.userId .UNAVAILABLE)
          else none) := by
    unfold handlePoll
    rw [hu]
    rfl
  constructor
  · intro msg hm
    rw [h2] at hm
    obtain ⟨kv, hkv, hf⟩ := List.mem_filterMap.mp hm
    by_cases hp : (kv.2.status ≠ UserStatus.UNAVAILABLE ∧ now - kv.2.updateTimestamp > 20)
    · rw [if_pos hp] at hf
      simp only [Option.some.injEq] at hf
      rcases (mem_dictSet hnd).mp hkv with rfl | ⟨hmem, hne⟩
      · exact absurd hp.2 (by show ¬(now - now > 20); omega)
      · rw [← hf]
        intro hcon
        have huid : kv.2.userId = u := by
          simpa [buildUserStatusMessage] using hcon
        exact hne ((hwell kv hmem).symm.trans huid)
    · rw [if_neg hp] at hf
      exact absurd hf (by simp)
  · intro k s hk hkne
    rw [h2]
    constructor
    · intro hm
      obtain ⟨kv, hkv, hf⟩ := List.mem_filterMap.mp hm
      by_cases hp : (kv.2.status ≠ UserStatus.UNAVAILABLE ∧ now - kv.2.updateTimestamp > 20)
      · rw [if_pos hp] at hf
        simp only [Option.some.injEq] at hf
        have huid : kv.2.userId = k := buildUserStatusMessage_inj hf
        rcases (mem_dictSet hnd).mp hkv with rfl | ⟨hmem, hne⟩
        · exact absurd (hstu.symm.trans huid) (fun hq => hkne hq.symm)
        · have hk1 : kv.1 = k := (hwell kv hmem).symm.trans huid
          have hg : dictGet c.state.users k = some kv.2 := hk1 ▸ mem_dictGet hnd hmem
          rw [hk] at hg
          simp only [Option.some.injEq] at hg
          rw [hg]
          exact hp
      · rw [if_neg hp] at hf
        exact absurd hf (by simp)
    · intro hpred
      refine List.mem_filterMap.mpr ⟨(k, s), ?_, ?_⟩
      · exact (mem_dictSet hnd).mpr (Or.inr ⟨dictGet_mem hk, hkne⟩)
      · rw [if_pos hpred]
        rw [show (k, s).2.userId = k from hwell (k, s) (dictGet_mem hk)]

/-- Witness for C10 at the two-user chat: the poll refreshes user 1 and
emits the UNAVAILABLE message only for the stale user 2. -/
theorem claim_C10_handle_poll_witness :
    (buildUserStatusMessage c10Chat 2 .UNAVAILABLE).userStatusMessage.map
        (fun p => p.userId) ≠ some 1 ∧
    buildUserStatusMessage c10Chat 2 .UNAVAILABLE ∈ (handlePoll 100 1 c10Chat).2 := by
  have h := claim_C10_handle_poll 100 1 c10Chat
      { userId := 1, status := .AVAILABLE, updateTimestamp := 0 }
      (by decide) (by decide) rfl
  refine ⟨h.1 _ ?_, ?_⟩
  · decide
  · exact (h.2 2 { userId := 2, status := .AVAILABLE, updateTimestamp := 0 } rfl
      (by decide)).mpr ⟨by decide, by decide⟩

end Chatsvc
